import Mathlib

/-!
Shallow embedding of the rotating-badge moderation engine of projectpollify/MVP
(`src/modules/moderation/...`): badge assignment, invitation lifecycle,
moderation decisions, and reward/penalty settlement, together with proofs of
the specification's claims about them.

Conventions of the embedding:
* time is a `Nat` counting hours (SQL `NOW()` becomes an explicit `now`
  argument; one operation runs at one instant);
* SQL tables become lists of rows inside a `DB` record; `UPDATE ... WHERE`
  becomes `List.map` guarded on the row key, `INSERT` becomes append;
* a transaction that throws is modelled by returning the original `DB`
  together with `some` error (the source issues `ROLLBACK` and rethrows);
* the external collaborators (blockchain ledger, token transfer) are modelled
  by boolean oracles saying whether a given call succeeds; initiated token
  transfers are recorded in a ghost field `transfers`;
* `Math.random()`-driven choices (candidate pick, duty length) become `Nat`
  parameters, reduced modulo the relevant range exactly as the source does.
-/

namespace PollifyMod

set_option maxRecDepth 16384

/-- Scope kind of a badge: a group or a pillar (topic area). -/
inductive ScopeType
  | group
  | pillar
deriving DecidableEq

/-- A scope: kind plus scope id (`scope_type`, `scope_id` columns). -/
structure Scope where
  stype : ScopeType
  sid : Nat
deriving DecidableEq

/-- `mod_badges.status` values. -/
inductive BadgeStatus
  | offered
  | active
  | declined
  | expired
  | abandoned
deriving DecidableEq

/-- A `mod_badges` row.  `minActionsRequired := 5` is the column default;
the migration defining it is not under `src/`, the value follows
`config.ts` (`minActionsRequired: 5`) and the spec's quota of 5. -/
structure Badge where
  id : Nat
  scope : Scope
  holderId : Nat
  status : BadgeStatus
  dutyDays : Nat
  startDate : Option Nat := none
  endDate : Option Nat := none
  actionsTaken : Nat := 0
  minActionsRequired : Nat := 5
deriving DecidableEq

/-- `badge_invitations.response` values (NULL is `Option.none`). -/
inductive InvResponse
  | accepted
  | declined
  | timeout
deriving DecidableEq

/-- A `badge_invitations` row. -/
structure Invitation where
  id : Nat
  badgeId : Nat
  userId : Nat
  invitedAt : Nat
  expiresAt : Nat
  response : Option InvResponse := none
deriving DecidableEq

/-- `badge_history.completion_status` values. -/
inductive Outcome
  | completed
  | abandoned
deriving DecidableEq

/-- A `badge_history` row. -/
structure HistoryRow where
  userId : Nat
  badgeId : Nat
  scope : Scope
  outcome : Outcome
  completedAt : Nat
deriving DecidableEq

/-- A `users` row (the fields the moderation engine reads).
`mode = true` is a normal account, `false` is read-only Soul mode.
`wallet` is `some` when the user has a wallet public key. -/
structure User where
  id : Nat
  mode : Bool
  reputation : Int
  createdAt : Nat
  lastLogin : Nat
  pillarId : Option Nat := none
  wallet : Option Nat := none
deriving DecidableEq

/-- A `posts` row (used for trailing-30-day activity and as content). -/
structure Post where
  id : Nat
  userId : Nat
  createdAt : Nat
  hidden : Bool := false
deriving DecidableEq

/-- A `comments` row (content only). -/
structure Comment where
  id : Nat
  userId : Nat
  createdAt : Nat
  hidden : Bool := false
deriving DecidableEq

/-- Content kinds appearing in `content_flags.content_type` and
`mod_actions.content_type` (`'badge'` is used by `passBadge`). -/
inductive ContentType
  | post
  | comment
  | badgeKind
deriving DecidableEq

/-- A `content_flags` row. -/
structure Flag where
  ctype : ContentType
  contentId : Nat
  flaggerId : Nat
  groupId : Nat
  resolved : Bool
  createdAt : Nat
deriving DecidableEq

/-- `mod_actions.action` values. -/
inductive ActionKind
  | keep
  | remove
  | passed
deriving DecidableEq

/-- A `mod_actions` row (`reason` is an opaque token, `flagsAtReview`
mirrors the nullable `flags_at_review` column). -/
structure ModAction where
  id : Nat
  badgeId : Nat
  ctype : ContentType
  contentId : Nat
  kind : ActionKind
  reason : Option Nat := none
  flagsAtReview : Option Nat := none
deriving DecidableEq

/-- A `moderation_config` row.  The assignment fields are NOT NULL with
defaults; the reward/penalty fields are read through a LEFT JOIN and a
JavaScript `||` fallback, so they are kept optional here.  PCO amounts are
scaled by 1000 (0.5 PCO = 500) to stay integral. -/
structure ConfigRow where
  scope : Scope
  membersPerBadge : Nat
  minReputation : Int
  minAccountAgeDays : Nat
  rewardPco : Option Int := none
  rewardReputation : Option Int := none
  penaltyReputation : Option Int := none
deriving DecidableEq

/-- A `groups` row (id and `is_active`). -/
structure Group where
  id : Nat
  isActive : Bool
deriving DecidableEq

/-- The database state: external tables (users, groups, members, posts,
comments, flags, pillars), the engine's own tables (badges, invitations,
history, configs, actions), a ghost log `transfers` of badge ids for which
a token transfer was initiated, and a fresh-id counter. -/
structure DB where
  users : List User
  groups : List Group
  groupMembers : List (Nat × Nat)
  pillars : List Nat
  posts : List Post
  comments : List Comment
  flags : List Flag
  badges : List Badge
  invitations : List Invitation
  history : List HistoryRow
  configs : List ConfigRow
  modActions : List ModAction
  transfers : List Nat
  nextId : Nat
deriving DecidableEq

/-- Hours per day. -/
def hoursPerDay : Nat := 24

/-- `INVITATION_TIMEOUT_HOURS = 12`. -/
def invitationTimeoutHours : Nat := 12

/-- The 14-day cooldown window, in hours (`INTERVAL '14 days'`). -/
def cooldownHours : Nat := 14 * 24

/-- The 30-day activity window, in hours (`INTERVAL '30 days'`). -/
def activityHours : Nat := 30 * 24

/-- JavaScript `x || d` over a nullable SQL read: `NULL` and `0` are falsy. -/
def orFalsy (x : Option Int) (d : Int) : Int :=
  match x with
  | none => d
  | some v => if v = 0 then d else v

/-- `Math.ceil(a / b)` for positive `b` (used on `activeMembers / badgeRatio`). -/
def ceilDiv (a b : Nat) : Nat := (a + b - 1) / b

/-- Errors surfaced by the engine's fallible operations. -/
inductive Err
  | invalidInvitation
  | badgeNotActive
  | ledgerFailure
  | itemFailure
deriving DecidableEq

/-- Result of a fallible operation: `(some e, db)` is a thrown error after
`ROLLBACK`, carrying the database as the caller now sees it. -/
abbrev OpResult := Option Err × DB

/-- Whether a badge status counts against concurrency and scope capacity
(`status IN ('offered', 'active')`). -/
def isConc (s : BadgeStatus) : Bool :=
  match s with
  | .offered => true
  | .active => true
  | _ => false

/-- `EXTRACT(DAY FROM NOW() - created_at)`: whole days of account age. -/
def accountAgeDays (u : User) (now : Nat) : Nat :=
  (now - u.createdAt) / hoursPerDay

/-- Trailing-30-day activity test shared by eligibility and member counting:
`last_login > NOW() - 30 days` or a post in the last 30 days. -/
def lastActiveOk (db : DB) (uid : Nat) (lastLogin : Nat) (now : Nat) : Bool :=
  (decide (lastLogin + activityHours > now)) ||
    db.posts.any (fun p => decide (p.userId = uid ∧ p.createdAt + activityHours > now))

/-- Scope membership test: the `group_members` join for a group scope, the
`pillar_id` column for a pillar scope. -/
def inScope (db : DB) (u : User) (scope : Scope) : Bool :=
  match scope.stype with
  | .group => db.groupMembers.any (fun gm => decide (gm.1 = scope.sid ∧ gm.2 = u.id))
  | .pillar => decide (u.pillarId = some scope.sid)

/-- `EXISTS (SELECT 1 FROM mod_badges WHERE holder_id = uid AND status IN
('offered','active'))` — the user already holds or is offered a badge
anywhere. -/
def holdsConcurrentBadge (db : DB) (uid : Nat) : Bool :=
  db.badges.any (fun b => decide (b.holderId = uid) && isConc b.status)

/-- `EXISTS (SELECT 1 FROM badge_history WHERE user_id = uid AND scope
matches AND completed_at > NOW() - 14 days)` — the same-scope cooldown. -/
def recentScopeHistory (db : DB) (uid : Nat) (scope : Scope) (now : Nat) : Bool :=
  db.history.any (fun h =>
    decide (h.userId = uid ∧ h.scope = scope ∧ h.completedAt + cooldownHours > now))

/-- `BadgeAssignmentService.getEligibleUsers`: members of the scope in normal
mode, meeting the reputation and account-age minima, holding no offered or
active badge anywhere, outside the same-scope 14-day cooldown, and active in
the trailing 30 days.  `ORDER BY RANDOM()` is absorbed into the random index
used by `assignNewBadge`. -/
def eligibleUsers (db : DB) (scope : Scope) (cfg : ConfigRow) (now : Nat) : List User :=
  db.users.filter (fun u =>
    inScope db u scope && u.mode &&
    decide (u.reputation ≥ cfg.minReputation) &&
    decide (accountAgeDays u now ≥ cfg.minAccountAgeDays) &&
    !holdsConcurrentBadge db u.id &&
    !recentScopeHistory db u.id scope now &&
    lastActiveOk db u.id u.lastLogin now)

/-- `BadgeAssignmentService.getActiveMemberCount`: scope members in normal
mode and active in the trailing 30 days. -/
def activeMemberCount (db : DB) (scope : Scope) (now : Nat) : Nat :=
  (db.users.filter (fun u =>
    inScope db u scope && u.mode && lastActiveOk db u.id u.lastLogin now)).length

/-- `BadgeAssignmentService.getActiveBadgeCount`: badges of the scope with
status offered or active. -/
def scopeBadgeCount (db : DB) (scope : Scope) : Nat :=
  (db.badges.filter (fun b => decide (b.scope = scope) && isConc b.status)).length

/-- The stored `moderation_config` row of a scope, if any. -/
def configFor (db : DB) (scope : Scope) : Option ConfigRow :=
  db.configs.find? (fun c => decide (c.scope = scope))

/-- The row `getOrCreateConfig` inserts when a scope has no config.
Modelled from the spec: the `moderation_config` migration is not under
`src/`; the column defaults follow the spec's defaults and `config.ts`
(ratio 50, min reputation 0, min account age 7 days, reward 0.5 PCO and
+5 reputation, abandonment penalty a −3 reputation delta). -/
def defaultConfigRow (scope : Scope) : ConfigRow :=
  { scope := scope
    membersPerBadge := 50
    minReputation := 0
    minAccountAgeDays := 7
    rewardPco := some 500
    rewardReputation := some 5
    penaltyReputation := some (-3) }

/-- `BadgeAssignmentService.getOrCreateConfig`: read the scope's config row,
inserting the default row first if none exists. -/
def getOrCreateConfig (db : DB) (scope : Scope) : ConfigRow × DB :=
  match configFor db scope with
  | some c => (c, db)
  | none =>
      let c := defaultConfigRow scope
      (c, { db with configs := db.configs ++ [c] })

/-- A user never produced by a lookup on a nonempty eligible list (placates
`List.getD`; any concrete pick stays inside the list). -/
def dummyUser : User :=
  { id := 0, mode := false, reputation := 0, createdAt := 0, lastLogin := 0 }

/-- `BadgeAssignmentService.assignNewBadge`: pick an eligible user at random
(empty set: log and return), pick `duty_days` uniformly in `[3,7]`, insert an
offered badge and its invitation expiring 12 hours from now.  `pickR` and
`dutyR` are the two `Math.random()` draws. -/
def assignNewBadge (db : DB) (scope : Scope) (cfg : ConfigRow) (now : Nat)
    (pickR dutyR : Nat) : DB :=
  let elig := eligibleUsers db scope cfg now
  if elig.isEmpty then db
  else
    let u := elig.getD (pickR % elig.length) dummyUser
    let duty := dutyR % 5 + 3
    let bid := db.nextId
    let badge : Badge :=
      { id := bid, scope := scope, holderId := u.id, status := .offered, dutyDays := duty }
    let inv : Invitation :=
      { id := bid + 1, badgeId := bid, userId := u.id, invitedAt := now
        expiresAt := now + invitationTimeoutHours }
    { db with
      badges := db.badges ++ [badge]
      invitations := db.invitations ++ [inv]
      nextId := db.nextId + 2 }

/-- The deficit loop of `checkAndAssignBadges`: run `assignNewBadge` `n`
times, consuming one `(pickR, dutyR)` pair per iteration. -/
def assignLoop (scope : Scope) (cfg : ConfigRow) (now : Nat) :
    Nat → List (Nat × Nat) → DB → DB
  | 0, _, db => db
  | n + 1, rs, db =>
      assignLoop scope cfg now n rs.tail
        (assignNewBadge db scope cfg now (rs.headD (0, 0)).1 (rs.headD (0, 0)).2)

/-- `BadgeAssignmentService.checkAndAssignBadges`: get or create the scope
config, compute `desired = ceil(activeMembers / badgeRatio)`,
`current = count(offered | active)`, and assign `max 0 (desired - current)`
new badges. -/
def checkAndAssignBadges (db : DB) (scope : Scope) (now : Nat)
    (rands : List (Nat × Nat)) : DB :=
  let cdb := getOrCreateConfig db scope
  let cfg := cdb.1
  let db1 := cdb.2
  let desired := ceilDiv (activeMemberCount db1 scope now) cfg.membersPerBadge
  let current := scopeBadgeCount db1 scope
  assignLoop scope cfg now (desired - current) rands db1

/-- Badge row by id (`WHERE id = $1`, first match). -/
def badgeById (db : DB) (bid : Nat) : Option Badge :=
  db.badges.find? (fun b => decide (b.id = bid))

/-- `UPDATE mod_badges SET ... WHERE id = bid`, as a row transformer. -/
def updateBadge (db : DB) (bid : Nat) (f : Badge → Badge) : DB :=
  { db with badges := db.badges.map (fun b => if b.id = bid then f b else b) }

/-- `UPDATE badge_invitations SET ... WHERE id = iid`. -/
def updateInvitation (db : DB) (iid : Nat) (f : Invitation → Invitation) : DB :=
  { db with invitations := db.invitations.map (fun i => if i.id = iid then f i else i) }

/-- `UPDATE users SET reputation_score = reputation_score + delta WHERE id = uid`. -/
def adjustReputation (db : DB) (uid : Nat) (delta : Int) : DB :=
  { db with users := db.users.map (fun u =>
      if u.id = uid then { u with reputation := u.reputation + delta } else u) }

/-- The joined row `acceptInvitation`/`declineInvitation` lock: an invitation
for this badge and user with `response IS NULL`, joined to its badge.
`requireUnexpired` adds accept's `expires_at > NOW()` condition (decline has
no expiry condition in its query). -/
def findOpenInvitation (db : DB) (uid bid : Nat) (now : Nat)
    (requireUnexpired : Bool) : Option (Invitation × Badge) :=
  match db.invitations.find? (fun i =>
      decide (i.badgeId = bid ∧ i.userId = uid ∧ i.response = none) &&
      (!requireUnexpired || decide (i.expiresAt > now))) with
  | none => none
  | some i =>
      match db.badges.find? (fun b => decide (b.id = bid ∧ b.status = .offered)) with
      | none => none
      | some b => some (i, b)

/-- `BadgeInvitationService.acceptInvitation`: under the row lock, validate
the invitation (unresponded, unexpired, badge still offered), mark it
accepted, activate the badge with `start_date = now` and
`end_date = now + duty_days`, then record the acceptance on the ledger
*inside the transaction*; a ledger failure hits the catch block's `ROLLBACK`
and is rethrown, so nothing commits. -/
def acceptInvitation (db : DB) (uid bid : Nat) (now : Nat) (ledgerOk : Bool) :
    OpResult :=
  match findOpenInvitation db uid bid now true with
  | none => (some .invalidInvitation, db)
  | some ib =>
      if ledgerOk then
        let db1 := updateInvitation db ib.1.id (fun i => { i with response := some .accepted })
        let db2 := updateBadge db1 bid (fun b =>
          { b with status := .active, startDate := some now
                   endDate := some (now + b.dutyDays * hoursPerDay) })
        (none, db2)
      else (some .ledgerFailure, db)

/-- `BadgeInvitationService.declineInvitation`: mark the invitation declined
and the badge `declined`, commit, then synchronously re-run
`checkAndAssignBadges` for the same scope to backfill. -/
def declineInvitation (db : DB) (uid bid : Nat) (now : Nat)
    (rands : List (Nat × Nat)) : OpResult :=
  match findOpenInvitation db uid bid now false with
  | none => (some .invalidInvitation, db)
  | some ib =>
      let db1 := updateInvitation db ib.1.id (fun i => { i with response := some .declined })
      let db2 := updateBadge db1 bid (fun b => { b with status := .declined })
      (none, checkAndAssignBadges db2 ib.2.scope now rands)

/-- The timeout sweep's selection: unresponded invitations past `expires_at`
joined to their still-offered badges. -/
def expiredInvitations (db : DB) (now : Nat) : List (Invitation × Badge) :=
  (db.invitations.filter (fun i => decide (i.response = none ∧ i.expiresAt < now))).filterMap
    (fun i =>
      match db.badges.find? (fun b => decide (b.id = i.badgeId ∧ b.status = .offered)) with
      | none => none
      | some b => some (i, b))

/-- One item's retirement UPDATEs, issued on the sweep's own transaction:
mark the invitation `timeout` and force its badge to `declined`.  These
become visible only at the sweep's COMMIT. -/
def timeoutRetire (db : DB) (item : Invitation × Badge) : DB :=
  updateBadge (updateInvitation db item.1.id
      (fun i => { i with response := some .timeout }))
    item.1.badgeId (fun b => { b with status := .declined })

/-- One item's backfill: `getOrCreateConfig` queries the pool directly and
`assignNewBadge` opens its own connection with its own BEGIN/COMMIT, so both
read only committed state and their writes commit immediately, independently
of the sweep's transaction. -/
def timeoutBackfill (db : DB) (item : Invitation × Badge) (now : Nat)
    (r : Nat × Nat) : DB :=
  let cdb := getOrCreateConfig db item.2.scope
  assignNewBadge cdb.2 item.2.scope cdb.1 now r.1 r.2

/-- The loop of `processInvitationTimeouts`.  The sweep's own transaction
holds only the retirement UPDATEs; each item's backfill commits on separate
connections.  `keep` is the committed database (backfills applied), `done`
the items whose retirements are pending in the sweep's transaction.  An
error while processing an item (the `itemFail` oracle, keyed by invitation
id, taken at the item's start) aborts the loop and the catch block's
ROLLBACK discards the pending retirements — but the already-committed
backfills remain, so the state is `keep`, not the original.  On success the
COMMIT makes all retirements visible. -/
def timeoutLoop (now : Nat) (itemFail : Nat → Bool) :
    List (Invitation × Badge) → List (Nat × Nat) → DB →
      List (Invitation × Badge) → OpResult
  | [], _, keep, done => (none, done.foldl timeoutRetire keep)
  | it :: rest, rs, keep, done =>
      if itemFail it.1.id then (some .itemFailure, keep)
      else timeoutLoop now itemFail rest rs.tail
        (timeoutBackfill keep it now (rs.headD (0, 0))) (done ++ [it])

/-- `BadgeAssignmentService.processInvitationTimeouts`: select the expired
invitations from committed state, then run the loop above. -/
def processInvitationTimeouts (db : DB) (now : Nat) (itemFail : Nat → Bool)
    (rands : List (Nat × Nat)) : OpResult :=
  timeoutLoop now itemFail (expiredInvitations db now) rands db []

/-- `BadgeInvitationService.passBadge`: the holder of an `active` badge
abandons it: record a `passed` action (content type `'badge'`), set the badge
`abandoned` with `end_date = now`, append an `abandoned` history row, apply
the fixed −3 reputation penalty, commit, then backfill via
`checkAndAssignBadges`. -/
def passBadge (db : DB) (uid bid : Nat) (reason : Nat) (now : Nat)
    (rands : List (Nat × Nat)) : OpResult :=
  match db.badges.find? (fun b =>
      decide (b.id = bid ∧ b.holderId = uid ∧ b.status = .active)) with
  | none => (some .badgeNotActive, db)
  | some b =>
      let act : ModAction :=
        { id := db.nextId, badgeId := bid, ctype := .badgeKind, contentId := bid
          kind := .passed, reason := some reason }
      let db1 := { db with modActions := db.modActions ++ [act], nextId := db.nextId + 1 }
      let db2 := updateBadge db1 bid (fun x =>
        { x with status := .abandoned, endDate := some now })
      let db3 := { db2 with history := db2.history ++
        [{ userId := uid, badgeId := bid, scope := b.scope, outcome := .abandoned
           completedAt := now }] }
      let db4 := adjustReputation db3 uid (-3)
      (none, checkAndAssignBadges db4 b.scope now rands)

/-- The payload of a review submission (`ModerationDecision`). -/
structure Decision where
  badgeId : Nat
  ctype : ContentType
  contentId : Nat
  act : ActionKind
  reason : Option Nat := none
deriving DecidableEq

/-- Unresolved flags currently on a piece of content (the `COUNT(*)` read
`submitModerationDecision` snapshots into `flags_at_review`). -/
def unresolvedFlagCount (db : DB) (ct : ContentType) (cid : Nat) : Nat :=
  (db.flags.filter (fun f =>
    decide (f.ctype = ct ∧ f.contentId = cid ∧ f.resolved = false))).length

/-- `UPDATE posts/comments SET is_hidden = true WHERE id = cid`. -/
def hideContent (db : DB) (ct : ContentType) (cid : Nat) : DB :=
  match ct with
  | .post => { db with posts := db.posts.map (fun p =>
      if p.id = cid then { p with hidden := true } else p) }
  | .comment => { db with comments := db.comments.map (fun c =>
      if c.id = cid then { c with hidden := true } else c) }
  | .badgeKind => db

/-- `SELECT user_id FROM <content_type>s WHERE id = cid`. -/
def contentAuthor (db : DB) (ct : ContentType) (cid : Nat) : Option Nat :=
  match ct with
  | .post => (db.posts.find? (fun p => decide (p.id = cid))).map (fun p => p.userId)
  | .comment => (db.comments.find? (fun c => decide (c.id = cid))).map (fun c => c.userId)
  | .badgeKind => none

/-- `UPDATE content_flags SET resolved = true WHERE ... AND resolved = false`. -/
def resolveFlags (db : DB) (ct : ContentType) (cid : Nat) : DB :=
  { db with flags := db.flags.map (fun f =>
      if decide (f.ctype = ct ∧ f.contentId = cid ∧ f.resolved = false)
      then { f with resolved := true } else f) }

/-- The `if (decision.action === 'remove')` block of
`submitModerationDecision`: hide the content and debit its author's
reputation by 1 (when the author row is found). -/
def applyRemoval (db : DB) (d : Decision) : DB :=
  if d.act = .remove then
    let dbh := hideContent db d.ctype d.contentId
    match contentAuthor dbh d.ctype d.contentId with
    | some aid => adjustReputation dbh aid (-1)
    | none => dbh
  else db

/-- `ModerationQueueService.submitModerationDecision`: verify the caller
holds this exact badge in `active` status; snapshot the current unresolved
flag count into a new `mod_actions` row; on `remove`, hide the content and
debit the author's reputation by 1; resolve all unresolved flags on the
content; increment `actions_taken`; record the action on the ledger *inside
the transaction* — a ledger failure rolls the whole unit of work back.
No check that the content still has unresolved flags is made. -/
def submitModerationDecision (db : DB) (uid : Nat) (d : Decision) (now : Nat)
    (ledgerOk : Bool) : OpResult :=
  match db.badges.find? (fun b =>
      decide (b.id = d.badgeId ∧ b.holderId = uid ∧ b.status = .active)) with
  | none => (some .badgeNotActive, db)
  | some _ =>
      if ledgerOk then
        let flagCount := unresolvedFlagCount db d.ctype d.contentId
        let act : ModAction :=
          { id := db.nextId, badgeId := d.badgeId, ctype := d.ctype
            contentId := d.contentId, kind := d.act, reason := d.reason
            flagsAtReview := some flagCount }
        let db1 := { db with modActions := db.modActions ++ [act], nextId := db.nextId + 1 }
        let db2 := applyRemoval db1 d
        let db3 := resolveFlags db2 d.ctype d.contentId
        let db4 := updateBadge db3 d.badgeId (fun b =>
          { b with actionsTaken := b.actionsTaken + 1 })
        (none, db4)
      else (some .ledgerFailure, db)

/-- The settlement sweep's selection (`FOR UPDATE`): badges with
`status = 'active'` and `end_date <= NOW()`, inner-joined to their holder's
`users` row. -/
def expiredSelection (db : DB) (now : Nat) : List Badge :=
  db.badges.filter (fun b =>
    decide (b.status = .active) &&
    (match b.endDate with
     | some e => decide (e ≤ now)
     | none => false) &&
    db.users.any (fun u => decide (u.id = b.holderId)))

/-- The holder's wallet key as read by the settlement join (from the
selection-time state `orig`). -/
def holderWallet (orig : DB) (b : Badge) : Option Nat :=
  (orig.users.find? (fun u => decide (u.id = b.holderId))).bind (fun u => u.wallet)

/-- `BadgeRewardsService.processSuccessfulCompletion`: set `status =
'expired'`, append a `completed` history row, credit `reward_reputation`
(falsy fallback 5), and — when `reward_pco || 0.5` is positive and the
holder has a wallet — initiate the token transfer (its failure and the
ledger record after it are caught and only logged). -/
def settleCompleted (orig db : DB) (b : Badge) (now : Nat) : DB :=
  let cfg := configFor orig b.scope
  let db1 := updateBadge db b.id (fun x => { x with status := .expired })
  let db2 := { db1 with history := db1.history ++
    [{ userId := b.holderId, badgeId := b.id, scope := b.scope
       outcome := .completed, completedAt := now }] }
  let db3 := adjustReputation db2 b.holderId (orFalsy (cfg.bind (fun c => c.rewardReputation)) 5)
  let pco := orFalsy (cfg.bind (fun c => c.rewardPco)) 500
  if pco > 0 ∧ (holderWallet orig b).isSome then
    { db3 with transfers := db3.transfers ++ [b.id] }
  else db3

/-- `BadgeRewardsService.processAbandonedBadge`: set `status = 'expired'`,
append an `abandoned` history row, apply `penalty_reputation` (falsy
fallback −3) as a reputation delta; no token transfer.  The uncaught ledger
record at its end is handled by the caller's per-badge catch. -/
def settleAbandoned (orig db : DB) (b : Badge) (now : Nat) : DB :=
  let cfg := configFor orig b.scope
  let db1 := updateBadge db b.id (fun x => { x with status := .expired })
  let db2 := { db1 with history := db1.history ++
    [{ userId := b.holderId, badgeId := b.id, scope := b.scope
       outcome := .abandoned, completedAt := now }] }
  adjustReputation db2 b.holderId (orFalsy (cfg.bind (fun c => c.penaltyReputation)) (-3))

/-- One iteration of the settlement sweep: the completion test
`actions_taken >= min_actions_required` picks the path; the abandoned
path's uncaught ledger record failure (oracle `itemLedgerOk`, keyed by
badge id) hits the per-badge catch and rolls only this badge back. -/
def settleStep (orig : DB) (now : Nat) (itemLedgerOk : Nat → Bool)
    (acc : DB) (b : Badge) : DB :=
  if b.actionsTaken ≥ b.minActionsRequired then settleCompleted orig acc b now
  else if itemLedgerOk b.id then settleAbandoned orig acc b now
  else acc

/-- `BadgeRewardsService.processExpiredBadges`: each selected badge is
settled in its own transaction with its own catch, so a failing badge is
rolled back alone and the sweep continues. -/
def processExpiredBadges (db : DB) (now : Nat) (itemLedgerOk : Nat → Bool) : DB :=
  (expiredSelection db now).foldl (settleStep db now itemLedgerOk) db

/-- The balance-check sweep's scope list: active groups that have members,
then pillars having a normal-mode user. -/
def sweepScopes (db : DB) : List Scope :=
  (db.groups.filter (fun g =>
      g.isActive && db.groupMembers.any (fun gm => decide (gm.1 = g.id)))).map
    (fun g => { stype := .group, sid := g.id }) ++
  (db.pillars.filter (fun p =>
      db.users.any (fun u => decide (u.pillarId = some p) && u.mode))).map
    (fun p => { stype := .pillar, sid := p })

/-- `ModerationCronJobs.checkAllScopesBadgeBalance`: run
`checkAndAssignBadges` for every scope, with a per-scope try/catch so a
failing scope (the `scopeFail` oracle) is skipped and the sweep continues. -/
def checkAllScopesBadgeBalance (db : DB) (now : Nat) (scopeFail : Scope → Bool)
    (rands : Scope → List (Nat × Nat)) : DB :=
  (sweepScopes db).foldl
    (fun acc s => if scopeFail s then acc else checkAndAssignBadges acc s now (rands s))
    db

/-- The externally owned tables (plus operator-mutable configs), used for
initial states and environment steps. -/
structure Env where
  users : List User
  groups : List Group
  groupMembers : List (Nat × Nat)
  pillars : List Nat
  posts : List Post
  comments : List Comment
  flags : List Flag
  configs : List ConfigRow

/-- An initial state: external data arbitrary, engine tables empty. -/
def initDB (e : Env) : DB :=
  { users := e.users, groups := e.groups, groupMembers := e.groupMembers
    pillars := e.pillars, posts := e.posts, comments := e.comments
    flags := e.flags, badges := [], invitations := [], history := []
    configs := e.configs, modActions := [], transfers := [], nextId := 0 }

/-- An environment step: the outside world (and operators) may rewrite the
external tables; the engine's own tables are untouched. -/
def setEnv (db : DB) (e : Env) : DB :=
  { db with users := e.users, groups := e.groups, groupMembers := e.groupMembers
            pillars := e.pillars, posts := e.posts, comments := e.comments
            flags := e.flags, configs := e.configs }

/-- States reachable by the engine: from any initial state, via environment
changes and the engine's operations with arbitrary instants, random draws
and collaborator outcomes. -/
inductive Reach : DB → Prop
  | init (e : Env) : Reach (initDB e)
  | env {db : DB} (e : Env) : Reach db → Reach (setEnv db e)
  | balance {db : DB} (now : Nat) (scopeFail : Scope → Bool)
      (rands : Scope → List (Nat × Nat)) :
      Reach db → Reach (checkAllScopesBadgeBalance db now scopeFail rands)
  | check {db : DB} (scope : Scope) (now : Nat) (rands : List (Nat × Nat)) :
      Reach db → Reach (checkAndAssignBadges db scope now rands)
  | accept {db : DB} (uid bid now : Nat) (ledgerOk : Bool) :
      Reach db → Reach (acceptInvitation db uid bid now ledgerOk).2
  | decline {db : DB} (uid bid now : Nat) (rands : List (Nat × Nat)) :
      Reach db → Reach (declineInvitation db uid bid now rands).2
  | timeouts {db : DB} (now : Nat) (itemFail : Nat → Bool) (rands : List (Nat × Nat)) :
      Reach db → Reach (processInvitationTimeouts db now itemFail rands).2
  | pass {db : DB} (uid bid reason now : Nat) (rands : List (Nat × Nat)) :
      Reach db → Reach (passBadge db uid bid reason now rands).2
  | submit {db : DB} (uid : Nat) (d : Decision) (now : Nat) (ledgerOk : Bool) :
      Reach db → Reach (submitModerationDecision db uid d now ledgerOk).2
  | settle {db : DB} (now : Nat) (itemLedgerOk : Nat → Bool) :
      Reach db → Reach (processExpiredBadges db now itemLedgerOk)

/-- Reputation of a user as stored (0 when the row is missing, mirroring an
empty SQL result). -/
def userRep (db : DB) (uid : Nat) : Int :=
  match db.users.find? (fun u => decide (u.id = uid)) with
  | some u => u.reputation
  | none => 0

/-! ### Generic list lemmas about guarded row updates

`UPDATE ... WHERE k` is `List.map (fun a => if k a then f a else a)`; these
lemmas say how filters, finds and counts move through such an update. -/

theorem countP_guard_eq {α : Type} (l : List α) (K : α → Prop) [DecidablePred K]
    (f : α → α) (p : α → Bool) (h : ∀ a, p (f a) = p a) :
    (l.map (fun a => if K a then f a else a)).countP p = l.countP p := by
  induction l with
  | nil => rfl
  | cons a t ih =>
      simp only [List.map_cons, List.countP_cons, ih]
      by_cases hk : K a
      · rw [if_pos hk, h a]
      · rw [if_neg hk]

theorem countP_guard_le {α : Type} (l : List α) (K : α → Prop) [DecidablePred K]
    (f : α → α) (p : α → Bool) (h : ∀ a, p (f a) = true → p a = true) :
    (l.map (fun a => if K a then f a else a)).countP p ≤ l.countP p := by
  induction l with
  | nil => exact le_refl _
  | cons a t ih =>
      simp only [List.map_cons, List.countP_cons]
      by_cases hk : K a
      · rw [if_pos hk]
        refine Nat.add_le_add ih ?_
        by_cases hp : p (f a) = true
        · rw [hp, h a hp]
        · rw [Bool.not_eq_true] at hp
          rw [hp]
          exact Nat.zero_le _
      · rw [if_neg hk]
        exact Nat.add_le_add ih (le_refl _)

theorem filter_guard_frame {α : Type} (l : List α) (K : α → Prop) [DecidablePred K]
    (f : α → α) (p : α → Bool) (hpres : ∀ a, p (f a) = p a)
    (hdisj : ∀ a, p a = true → ¬ K a) :
    (l.map (fun a => if K a then f a else a)).filter p = l.filter p := by
  induction l with
  | nil => rfl
  | cons a t ih =>
      simp only [List.map_cons, List.filter_cons]
      by_cases hk : K a
      · have hpa : p a = false := by
          cases hpa : p a
          · rfl
          · exact absurd hk (hdisj a hpa)
        rw [if_pos hk, hpres a, hpa, ih]
        simp
      · rw [if_neg hk, ih]

theorem find?_guard_frame {α : Type} (l : List α) (K : α → Prop) [DecidablePred K]
    (f : α → α) (p : α → Bool) (hpres : ∀ a, p (f a) = p a)
    (hdisj : ∀ a, p a = true → ¬ K a) :
    (l.map (fun a => if K a then f a else a)).find? p = l.find? p := by
  induction l with
  | nil => rfl
  | cons a t ih =>
      simp only [List.map_cons]
      by_cases hk : K a
      · have hpa : p a = false := by
          cases hpa : p a
          · rfl
          · exact absurd hk (hdisj a hpa)
        rw [if_pos hk, List.find?_cons, List.find?_cons, hpres a, hpa, ih]
      · rw [if_neg hk, List.find?_cons, List.find?_cons]
        cases hpa : p a
        · exact ih
        · rfl

theorem find?_guard_image {α : Type} (l : List α) (K : α → Prop) [DecidablePred K]
    (f : α → α) (p : α → Bool) (hpres : ∀ a, p (f a) = p a)
    (himp : ∀ a, p a = true → K a) :
    (l.map (fun a => if K a then f a else a)).find? p = (l.find? p).map f := by
  induction l with
  | nil => rfl
  | cons a t ih =>
      simp only [List.map_cons, List.find?_cons]
      by_cases hk : K a
      · rw [if_pos hk, hpres a]
        cases hpa : p a
        · exact ih
        · rfl
      · have hpa : p a = false := by
          cases hpa : p a
          · rfl
          · exact absurd (himp a hpa) hk
        rw [if_neg hk, hpa, ih]

/-! ### C9: accepting an invitation activates the badge with
`end_date = start_date + duty_days` exactly -/

/-- C9.  For every valid, unexpired, unresponded invitation, a successful
`acceptInvitation` succeeds and every stored row of the badge (hence also the
badge read back immediately afterwards) has `status = active`,
`start_date = now` and `end_date = now + duty_days` exactly, with no
re-computation drift. -/
theorem c9_accept_roundtrip (db : DB) (uid bid now : Nat)
    (hfind : (findOpenInvitation db uid bid now true).isSome = true) :
    (acceptInvitation db uid bid now true).1 = none ∧
    (∀ x ∈ (acceptInvitation db uid bid now true).2.badges, x.id = bid →
      x.status = .active ∧ x.startDate = some now ∧
      x.endDate = some (now + x.dutyDays * hoursPerDay)) ∧
    (∀ x, badgeById (acceptInvitation db uid bid now true).2 bid = some x →
      x.status = .active ∧ x.startDate = some now ∧
      x.endDate = some (now + x.dutyDays * hoursPerDay)) := by
  cases hf : findOpenInvitation db uid bid now true with
  | none => rw [hf] at hfind; exact absurd hfind (by simp)
  | some ib =>
      have hmem : ∀ x ∈ (acceptInvitation db uid bid now true).2.badges, x.id = bid →
          x.status = .active ∧ x.startDate = some now ∧
          x.endDate = some (now + x.dutyDays * hoursPerDay) := by
        intro x hx hxid
        simp only [acceptInvitation, hf, if_pos] at hx
        simp only [updateBadge, updateInvitation, List.mem_map] at hx
        obtain ⟨a, _, ha⟩ := hx
        by_cases hid : a.id = bid
        · rw [if_pos hid] at ha
          subst ha
          exact ⟨rfl, rfl, rfl⟩
        · rw [if_neg hid] at ha
          subst ha
          exact absurd hxid hid
      refine ⟨by simp [acceptInvitation, hf], hmem, ?_⟩
      intro x hx
      have hm : x ∈ (acceptInvitation db uid bid now true).2.badges :=
        List.mem_of_find?_eq_some hx
      have hp := List.find?_some hx
      have hxid : x.id = bid := by
        simpa using hp
      exact hmem x hm hxid

/-- Concrete fixture: one user, one offered badge with its open invitation. -/
def fixUser1 : User :=
  { id := 1, mode := true, reputation := 10, createdAt := 0, lastLogin := 900
    wallet := some 41 }

/-- Concrete fixture scope (group 7). -/
def fixScope : Scope := { stype := .group, sid := 7 }

/-- Concrete fixture database with badge 0 offered to user 1 (duty 3 days)
and invitation 1 open until hour 1012. -/
def fixAcceptDB : DB :=
  { users := [fixUser1]
    groups := [{ id := 7, isActive := true }]
    groupMembers := [(7, 1)]
    pillars := [], posts := [], comments := [], flags := []
    badges := [{ id := 0, scope := fixScope, holderId := 1, status := .offered
                 dutyDays := 3 }]
    invitations := [{ id := 1, badgeId := 0, userId := 1, invitedAt := 1000
                      expiresAt := 1012 }]
    history := [], configs := [], modActions := [], transfers := []
    nextId := 2 }

/-- Witness for C9 at the concrete fixture. -/
theorem c9_accept_roundtrip_witness :
    (acceptInvitation fixAcceptDB 1 0 1005 true).1 = none ∧
    (∀ x ∈ (acceptInvitation fixAcceptDB 1 0 1005 true).2.badges, x.id = 0 →
      x.status = .active ∧ x.startDate = some 1005 ∧
      x.endDate = some (1005 + x.dutyDays * hoursPerDay)) ∧
    (∀ x, badgeById (acceptInvitation fixAcceptDB 1 0 1005 true).2 0 = some x →
      x.status = .active ∧ x.startDate = some 1005 ∧
      x.endDate = some (1005 + x.dutyDays * hoursPerDay)) :=
  c9_accept_roundtrip fixAcceptDB 1 0 1005 (by decide)

/-! ### Frame lemmas: which tables each operation leaves untouched -/

theorem assignNewBadge_frame (db : DB) (s : Scope) (cfg : ConfigRow) (now p1 p2 : Nat) :
    (assignNewBadge db s cfg now p1 p2).users = db.users ∧
    (assignNewBadge db s cfg now p1 p2).groups = db.groups ∧
    (assignNewBadge db s cfg now p1 p2).groupMembers = db.groupMembers ∧
    (assignNewBadge db s cfg now p1 p2).pillars = db.pillars ∧
    (assignNewBadge db s cfg now p1 p2).posts = db.posts ∧
    (assignNewBadge db s cfg now p1 p2).comments = db.comments ∧
    (assignNewBadge db s cfg now p1 p2).flags = db.flags ∧
    (assignNewBadge db s cfg now p1 p2).history = db.history ∧
    (assignNewBadge db s cfg now p1 p2).configs = db.configs ∧
    (assignNewBadge db s cfg now p1 p2).modActions = db.modActions ∧
    (assignNewBadge db s cfg now p1 p2).transfers = db.transfers := by
  unfold assignNewBadge
  by_cases h : (eligibleUsers db s cfg now).isEmpty = true <;> simp [h]

theorem getOrCreateConfig_frame (db : DB) (s : Scope) :
    (getOrCreateConfig db s).2.users = db.users ∧
    (getOrCreateConfig db s).2.groups = db.groups ∧
    (getOrCreateConfig db s).2.groupMembers = db.groupMembers ∧
    (getOrCreateConfig db s).2.pillars = db.pillars ∧
    (getOrCreateConfig db s).2.posts = db.posts ∧
    (getOrCreateConfig db s).2.comments = db.comments ∧
    (getOrCreateConfig db s).2.flags = db.flags ∧
    (getOrCreateConfig db s).2.badges = db.badges ∧
    (getOrCreateConfig db s).2.invitations = db.invitations ∧
    (getOrCreateConfig db s).2.history = db.history ∧
    (getOrCreateConfig db s).2.modActions = db.modActions ∧
    (getOrCreateConfig db s).2.transfers = db.transfers ∧
    (getOrCreateConfig db s).2.nextId = db.nextId := by
  unfold getOrCreateConfig
  cases h : configFor db s <;> simp [h]

theorem assignLoop_frame (s : Scope) (cfg : ConfigRow) (now : Nat) (n : Nat)
    (rs : List (Nat × Nat)) (db : DB) :
    (assignLoop s cfg now n rs db).users = db.users ∧
    (assignLoop s cfg now n rs db).groups = db.groups ∧
    (assignLoop s cfg now n rs db).groupMembers = db.groupMembers ∧
    (assignLoop s cfg now n rs db).pillars = db.pillars ∧
    (assignLoop s cfg now n rs db).posts = db.posts ∧
    (assignLoop s cfg now n rs db).comments = db.comments ∧
    (assignLoop s cfg now n rs db).flags = db.flags ∧
    (assignLoop s cfg now n rs db).history = db.history ∧
    (assignLoop s cfg now n rs db).configs = db.configs ∧
    (assignLoop s cfg now n rs db).modActions = db.modActions ∧
    (assignLoop s cfg now n rs db).transfers = db.transfers := by
  induction n generalizing rs db with
  | zero => exact ⟨rfl, rfl, rfl, rfl, rfl, rfl, rfl, rfl, rfl, rfl, rfl⟩
  | succ m ih =>
      have h1 := assignNewBadge_frame db s cfg now (rs.headD (0, 0)).1 (rs.headD (0, 0)).2
      have h2 := ih rs.tail (assignNewBadge db s cfg now (rs.headD (0, 0)).1 (rs.headD (0, 0)).2)
      unfold assignLoop
      refine ⟨?_, ?_, ?_, ?_, ?_, ?_, ?_, ?_, ?_, ?_, ?_⟩ <;>
        simp only [h1.1, h1.2.1, h1.2.2.1, h1.2.2.2.1, h1.2.2.2.2.1, h1.2.2.2.2.2.1,
          h1.2.2.2.2.2.2.1, h1.2.2.2.2.2.2.2.1, h1.2.2.2.2.2.2.2.2.1,
          h1.2.2.2.2.2.2.2.2.2.1, h1.2.2.2.2.2.2.2.2.2.2,
          h2.1, h2.2.1, h2.2.2.1, h2.2.2.2.1, h2.2.2.2.2.1, h2.2.2.2.2.2.1,
          h2.2.2.2.2.2.2.1, h2.2.2.2.2.2.2.2.1, h2.2.2.2.2.2.2.2.2.1,
          h2.2.2.2.2.2.2.2.2.2.1, h2.2.2.2.2.2.2.2.2.2.2]

theorem checkAndAssign_frame (db : DB) (s : Scope) (now : Nat) (rs : List (Nat × Nat)) :
    (checkAndAssignBadges db s now rs).users = db.users ∧
    (checkAndAssignBadges db s now rs).groups = db.groups ∧
    (checkAndAssignBadges db s now rs).groupMembers = db.groupMembers ∧
    (checkAndAssignBadges db s now rs).pillars = db.pillars ∧
    (checkAndAssignBadges db s now rs).posts = db.posts ∧
    (checkAndAssignBadges db s now rs).comments = db.comments ∧
    (checkAndAssignBadges db s now rs).flags = db.flags ∧
    (checkAndAssignBadges db s now rs).history = db.history ∧
    (checkAndAssignBadges db s now rs).modActions = db.modActions ∧
    (checkAndAssignBadges db s now rs).transfers = db.transfers := by
  unfold checkAndAssignBadges
  have hc := getOrCreateConfig_frame db s
  have hl := assignLoop_frame s (getOrCreateConfig db s).1 now
    (ceilDiv (activeMemberCount (getOrCreateConfig db s).2 s now)
      (getOrCreateConfig db s).1.membersPerBadge -
      scopeBadgeCount (getOrCreateConfig db s).2 s) rs (getOrCreateConfig db s).2
  refine ⟨?_, ?_, ?_, ?_, ?_, ?_, ?_, ?_, ?_, ?_⟩ <;>
    simp only [hl.1, hl.2.1, hl.2.2.1, hl.2.2.2.1, hl.2.2.2.2.1, hl.2.2.2.2.2.1,
      hl.2.2.2.2.2.2.1, hl.2.2.2.2.2.2.2.1, hl.2.2.2.2.2.2.2.2.1,
      hl.2.2.2.2.2.2.2.2.2.1, hl.2.2.2.2.2.2.2.2.2.2,
      hc.1, hc.2.1, hc.2.2.1, hc.2.2.2.1, hc.2.2.2.2.1, hc.2.2.2.2.2.1,
      hc.2.2.2.2.2.2.1, hc.2.2.2.2.2.2.2.1, hc.2.2.2.2.2.2.2.2.1,
      hc.2.2.2.2.2.2.2.2.2.1, hc.2.2.2.2.2.2.2.2.2.2.1, hc.2.2.2.2.2.2.2.2.2.2.2]

/-! ### C4: a ledger failure blocks and rolls back the transition
(counterexample to the claim, and the corrected statement) -/

/-- Counterexample to C4 as stated.  At the concrete fixture, a throwing
`createBlockchainRecord` makes `acceptInvitation` fail and roll back: the
result state is the original one, no badge is active, the invitation is
still unresponded — while the same call with a healthy ledger succeeds, so
the ledger failure alone blocked the transition. -/
theorem c4_counterexample :
    acceptInvitation fixAcceptDB 1 0 1005 false = (some .ledgerFailure, fixAcceptDB) ∧
    (∀ x ∈ (acceptInvitation fixAcceptDB 1 0 1005 false).2.badges,
      x.status = .offered) ∧
    (∀ i ∈ (acceptInvitation fixAcceptDB 1 0 1005 false).2.invitations,
      i.response = none) ∧
    (acceptInvitation fixAcceptDB 1 0 1005 true).1 = none := by
  decide

/-- C4, corrected.  A ledger failure during `acceptInvitation` or
`submitModerationDecision` aborts the operation: the error propagates and
the whole transition rolls back, leaving the state unchanged (the invitation
does not become accepted, no action is recorded).  Only the settlement
completion path treats collaborator failures as best-effort. -/
theorem c4_amended (db1 : DB) (uid1 bid1 now1 : Nat) (db2 : DB) (uid2 : Nat)
    (d : Decision) (now2 : Nat)
    (h1 : (findOpenInvitation db1 uid1 bid1 now1 true).isSome = true)
    (h2 : (db2.badges.find? (fun b =>
      decide (b.id = d.badgeId ∧ b.holderId = uid2 ∧ b.status = .active))).isSome = true) :
    acceptInvitation db1 uid1 bid1 now1 false = (some .ledgerFailure, db1) ∧
    submitModerationDecision db2 uid2 d now2 false = (some .ledgerFailure, db2) := by
  constructor
  · cases hf : findOpenInvitation db1 uid1 bid1 now1 true with
    | none => rw [hf] at h1; exact absurd h1 (by simp)
    | some ib => simp [acceptInvitation, hf]
  · cases hf : db2.badges.find? (fun b =>
        decide (b.id = d.badgeId ∧ b.holderId = uid2 ∧ b.status = .active)) with
    | none => rw [hf] at h2; exact absurd h2 (by simp)
    | some b =>
        unfold submitModerationDecision
        rw [hf]
        simp

/-- Concrete fixture: badge 0 active for user 1 (ends at hour 1100, quota 5),
post 5 by user 2 whose only flag is already resolved. -/
def fixActiveDB : DB :=
  { users := [fixUser1,
      { id := 2, mode := true, reputation := 10, createdAt := 0, lastLogin := 900
        wallet := some 42 }]
    groups := [{ id := 7, isActive := true }]
    groupMembers := [(7, 1), (7, 2)]
    pillars := [], comments := []
    posts := [{ id := 5, userId := 2, createdAt := 800 }]
    flags := [{ ctype := .post, contentId := 5, flaggerId := 1, groupId := 7
                resolved := true, createdAt := 900 }]
    badges := [{ id := 0, scope := fixScope, holderId := 1, status := .active
                 dutyDays := 3, startDate := some 1028, endDate := some 1100 }]
    invitations := [{ id := 1, badgeId := 0, userId := 1, invitedAt := 1000
                      expiresAt := 1012, response := some .accepted }]
    history := [], configs := [], modActions := [], transfers := []
    nextId := 2 }

/-- The decision used by the C4/C5 fixtures. -/
def fixDecision : Decision :=
  { badgeId := 0, ctype := .post, contentId := 5, act := .keep }

/-- Witness for the corrected C4 at the concrete fixtures. -/
theorem c4_amended_witness :
    acceptInvitation fixAcceptDB 1 0 1005 false = (some .ledgerFailure, fixAcceptDB) ∧
    submitModerationDecision fixActiveDB 1 fixDecision 1050 false =
      (some .ledgerFailure, fixActiveDB) :=
  c4_amended fixAcceptDB 1 0 1005 fixActiveDB 1 fixDecision 1050 (by decide) (by decide)

/-! ### C5: a decision on fully-resolved content is not rejected — it
records another action (counterexample to the claim, and the corrected
statement) -/

theorem hideContent_frame (db : DB) (ct : ContentType) (cid : Nat) :
    (hideContent db ct cid).badges = db.badges ∧
    (hideContent db ct cid).flags = db.flags ∧
    (hideContent db ct cid).history = db.history ∧
    (hideContent db ct cid).invitations = db.invitations ∧
    (hideContent db ct cid).modActions = db.modActions ∧
    (hideContent db ct cid).transfers = db.transfers ∧
    (hideContent db ct cid).users = db.users ∧
    (hideContent db ct cid).nextId = db.nextId := by
  cases ct <;> exact ⟨rfl, rfl, rfl, rfl, rfl, rfl, rfl, rfl⟩

theorem applyRemoval_frame (db : DB) (d : Decision) :
    (applyRemoval db d).badges = db.badges ∧
    (applyRemoval db d).flags = db.flags ∧
    (applyRemoval db d).history = db.history ∧
    (applyRemoval db d).invitations = db.invitations ∧
    (applyRemoval db d).modActions = db.modActions ∧
    (applyRemoval db d).transfers = db.transfers ∧
    (applyRemoval db d).nextId = db.nextId := by
  unfold applyRemoval
  by_cases hr : d.act = .remove
  · rw [if_pos hr]
    dsimp only
    have hh := hideContent_frame db d.ctype d.contentId
    cases hca : contentAuthor (hideContent db d.ctype d.contentId) d.ctype d.contentId with
    | none =>
        exact ⟨hh.1, hh.2.1, hh.2.2.1, hh.2.2.2.1, hh.2.2.2.2.1, hh.2.2.2.2.2.1,
          hh.2.2.2.2.2.2.2⟩
    | some aid =>
        exact ⟨hh.1, hh.2.1, hh.2.2.1, hh.2.2.2.1, hh.2.2.2.2.1, hh.2.2.2.2.2.1,
          hh.2.2.2.2.2.2.2⟩
  · rw [if_neg hr]
    exact ⟨rfl, rfl, rfl, rfl, rfl, rfl, rfl⟩

theorem updateBadge_modActions (db : DB) (k : Nat) (f : Badge → Badge) :
    (updateBadge db k f).modActions = db.modActions := rfl

theorem updateBadge_badges (db : DB) (k : Nat) (f : Badge → Badge) :
    (updateBadge db k f).badges = db.badges.map (fun b => if b.id = k then f b else b) := rfl

theorem resolveFlags_modActions (db : DB) (ct : ContentType) (cid : Nat) :
    (resolveFlags db ct cid).modActions = db.modActions := rfl

theorem resolveFlags_badges (db : DB) (ct : ContentType) (cid : Nat) :
    (resolveFlags db ct cid).badges = db.badges := rfl

theorem applyRemoval_modActions (db : DB) (d : Decision) :
    (applyRemoval db d).modActions = db.modActions := (applyRemoval_frame db d).2.2.2.2.1

theorem applyRemoval_badges (db : DB) (d : Decision) :
    (applyRemoval db d).badges = db.badges := (applyRemoval_frame db d).1

/-- Counterexample to C5 as stated.  At the concrete fixture every flag on
post 5 is already resolved, yet the holder's submission does not fail with a
precondition error: it succeeds, appends a new `mod_actions` row (with
`flags_at_review = 0`) and increments `actions_taken` — a duplicate action
is recorded. -/
theorem c5_counterexample :
    unresolvedFlagCount fixActiveDB .post 5 = 0 ∧
    (submitModerationDecision fixActiveDB 1 fixDecision 1050 true).1 = none ∧
    (submitModerationDecision fixActiveDB 1 fixDecision 1050 true).2.modActions.length =
      fixActiveDB.modActions.length + 1 ∧
    ((submitModerationDecision fixActiveDB 1 fixDecision 1050 true).2.badges.all
      (fun b => decide (b.id ≠ 0 ∨ b.actionsTaken = 1))) = true := by
  decide

/-- C5, corrected.  A valid holder's submission on content whose flags are
all resolved is accepted, not rejected: it appends exactly one new
`mod_actions` row with `flags_at_review = 0` and increments the badge's
`actions_taken`; no already-resolved precondition is checked. -/
theorem c5_amended (db : DB) (uid : Nat) (d : Decision) (now : Nat)
    (hb : (db.badges.find? (fun b =>
      decide (b.id = d.badgeId ∧ b.holderId = uid ∧ b.status = .active))).isSome = true)
    (hf0 : unresolvedFlagCount db d.ctype d.contentId = 0) :
    (submitModerationDecision db uid d now true).1 = none ∧
    (submitModerationDecision db uid d now true).2.modActions =
      db.modActions ++
        [{ id := db.nextId, badgeId := d.badgeId, ctype := d.ctype
           contentId := d.contentId, kind := d.act, reason := d.reason
           flagsAtReview := some 0 }] ∧
    (∀ x ∈ (submitModerationDecision db uid d now true).2.badges, x.id = d.badgeId →
      ∃ y ∈ db.badges, y.id = d.badgeId ∧ x.actionsTaken = y.actionsTaken + 1) := by
  cases hfb : db.badges.find? (fun b =>
      decide (b.id = d.badgeId ∧ b.holderId = uid ∧ b.status = .active)) with
  | none => rw [hfb] at hb; exact absurd hb (by simp)
  | some b =>
      unfold submitModerationDecision
      rw [hfb]
      dsimp only
      rw [if_pos rfl]
      refine ⟨rfl, ?_, ?_⟩
      · dsimp only
        rw [updateBadge_modActions, resolveFlags_modActions, applyRemoval_modActions]
        dsimp only
        rw [hf0]
      · intro x hx hxid
        dsimp only at hx
        rw [updateBadge_badges, resolveFlags_badges, applyRemoval_badges] at hx
        dsimp only at hx
        simp only [List.mem_map] at hx
        obtain ⟨a, ha, hax⟩ := hx
        by_cases hid : a.id = d.badgeId
        · rw [if_pos hid] at hax
          subst hax
          exact ⟨a, ha, hid, rfl⟩
        · rw [if_neg hid] at hax
          subst hax
          exact absurd hxid hid

/-- Witness for the corrected C5 at the concrete fixture. -/
theorem c5_amended_witness :
    (submitModerationDecision fixActiveDB 1 fixDecision 1050 true).1 = none ∧
    (submitModerationDecision fixActiveDB 1 fixDecision 1050 true).2.modActions =
      fixActiveDB.modActions ++
        [{ id := fixActiveDB.nextId, badgeId := fixDecision.badgeId
           ctype := fixDecision.ctype, contentId := fixDecision.contentId
           kind := fixDecision.act, reason := fixDecision.reason
           flagsAtReview := some 0 }] ∧
    (∀ x ∈ (submitModerationDecision fixActiveDB 1 fixDecision 1050 true).2.badges,
      x.id = fixDecision.badgeId →
      ∃ y ∈ fixActiveDB.badges, y.id = fixDecision.badgeId ∧
        x.actionsTaken = y.actionsTaken + 1) :=
  c5_amended fixActiveDB 1 fixDecision 1050 (by decide) (by decide)

/-! ### C8: declining imposes no cooldown (counterexample and corrected
statement) -/

/-- Concrete fixture: a single eligible user (id 2) holding offered badge 0,
in a scope whose ratio keeps the desired badge count at 1. -/
def fixDeclineDB : DB :=
  { users := [{ id := 2, mode := true, reputation := 10, createdAt := 0
                lastLogin := 900, wallet := some 42 }]
    groups := [{ id := 7, isActive := true }]
    groupMembers := [(7, 2)]
    pillars := [], posts := [], comments := [], flags := []
    badges := [{ id := 0, scope := fixScope, holderId := 2, status := .offered
                 dutyDays := 3 }]
    invitations := [{ id := 1, badgeId := 0, userId := 2, invitedAt := 1000
                      expiresAt := 1012 }]
    history := []
    configs := [{ scope := fixScope, membersPerBadge := 1, minReputation := 0
                  minAccountAgeDays := 7 }]
    modActions := [], transfers := [], nextId := 2 }

/-- Counterexample to C8 as stated.  User 2 declines badge 0 at hour 1005 —
well inside any 14-day window — and the decline's own synchronous backfill
immediately selects user 2 again for the same scope: a fresh offered badge
for user 2 exists in the result, so candidate selection did select the
declining user within the cooldown window. -/
theorem c8_counterexample :
    (declineInvitation fixDeclineDB 2 0 1005 [(0, 0)]).1 = none ∧
    ((declineInvitation fixDeclineDB 2 0 1005 [(0, 0)]).2.badges.any (fun b =>
      decide (b.id ≠ 0 ∧ b.holderId = 2 ∧ b.scope = fixScope ∧
        b.status = .offered))) = true := by
  decide

/-- C8, corrected.  Declining appends no `badge_history` row, and the
14-day cooldown of candidate selection reads only `badge_history`, so a
decline leaves every user's cooldown status in every scope unchanged — in
particular the declining user may be selected again in the same scope
immediately (as the counterexample's synchronous backfill shows); only
completed or abandoned badges create cooldown entries. -/
theorem c8_amended (db : DB) (uid bid now : Nat) (rands : List (Nat × Nat)) :
    (declineInvitation db uid bid now rands).2.history = db.history ∧
    ∀ u s n, recentScopeHistory (declineInvitation db uid bid now rands).2 u s n =
      recentScopeHistory db u s n := by
  have hh : (declineInvitation db uid bid now rands).2.history = db.history := by
    unfold declineInvitation
    cases hf : findOpenInvitation db uid bid now false with
    | none => rfl
    | some ib =>
        dsimp only
        exact (checkAndAssign_frame _ ib.2.scope now rands).2.2.2.2.2.2.2.1
  refine ⟨hh, fun u s n => ?_⟩
  unfold recentScopeHistory
  rw [hh]

/-! ### Reputation and settlement frame lemmas -/

theorem userRep_adjust_ne (db : DB) (uid1 uid2 : Nat) (delta : Int) (h : uid2 ≠ uid1) :
    userRep (adjustReputation db uid1 delta) uid2 = userRep db uid2 := by
  unfold userRep adjustReputation
  dsimp only
  rw [find?_guard_frame db.users (fun u => u.id = uid1)
    (fun u => { u with reputation := u.reputation + delta })
    (fun u => decide (u.id = uid2)) (fun a => rfl)
    (fun a hp hK => by
      have ha2 : a.id = uid2 := by simpa using hp
      have hK2 : a.id = uid1 := hK
      rw [ha2] at hK2
      exact h hK2)]

theorem userRep_adjust_self (db : DB) (uid : Nat) (delta : Int)
    (hex : (db.users.find? (fun u => decide (u.id = uid))).isSome = true) :
    userRep (adjustReputation db uid delta) uid = userRep db uid + delta := by
  unfold userRep adjustReputation
  dsimp only
  rw [find?_guard_image db.users (fun u => u.id = uid)
    (fun u => { u with reputation := u.reputation + delta })
    (fun u => decide (u.id = uid)) (fun a => rfl)
    (fun a hp => by simpa using hp)]
  cases hu : db.users.find? (fun u => decide (u.id = uid)) with
  | none => rw [hu] at hex; exact absurd hex (by simp)
  | some u =>
      rfl

/-- The reward credited by the completed settlement path. -/
def completionRepDelta (orig : DB) (b : Badge) : Int :=
  orFalsy ((configFor orig b.scope).bind (fun c => c.rewardReputation)) 5

/-- The penalty applied by the abandoned settlement path. -/
def abandonRepDelta (orig : DB) (b : Badge) : Int :=
  orFalsy ((configFor orig b.scope).bind (fun c => c.penaltyReputation)) (-3)

theorem settleCompleted_proj (orig acc : DB) (b : Badge) (now : Nat) :
    (settleCompleted orig acc b now).badges =
      acc.badges.map (fun x => if x.id = b.id then { x with status := .expired } else x) ∧
    (settleCompleted orig acc b now).history = acc.history ++
      [{ userId := b.holderId, badgeId := b.id, scope := b.scope
         outcome := .completed, completedAt := now }] ∧
    (settleCompleted orig acc b now).users =
      acc.users.map (fun u => if u.id = b.holderId then
        { u with reputation := u.reputation + completionRepDelta orig b } else u) ∧
    (settleCompleted orig acc b now).transfers =
      (if orFalsy ((configFor orig b.scope).bind (fun c => c.rewardPco)) 500 > 0 ∧
          (holderWallet orig b).isSome then acc.transfers ++ [b.id] else acc.transfers) := by
  unfold settleCompleted completionRepDelta
  dsimp only
  by_cases hp : orFalsy ((configFor orig b.scope).bind (fun c => c.rewardPco)) 500 > 0 ∧
      (holderWallet orig b).isSome
  · rw [if_pos hp, if_pos hp]
    exact ⟨rfl, rfl, rfl, rfl⟩
  · rw [if_neg hp, if_neg hp]
    exact ⟨rfl, rfl, rfl, rfl⟩

theorem settleAbandoned_proj (orig acc : DB) (b : Badge) (now : Nat) :
    (settleAbandoned orig acc b now).badges =
      acc.badges.map (fun x => if x.id = b.id then { x with status := .expired } else x) ∧
    (settleAbandoned orig acc b now).history = acc.history ++
      [{ userId := b.holderId, badgeId := b.id, scope := b.scope
         outcome := .abandoned, completedAt := now }] ∧
    (settleAbandoned orig acc b now).users =
      acc.users.map (fun u => if u.id = b.holderId then
        { u with reputation := u.reputation + abandonRepDelta orig b } else u) ∧
    (settleAbandoned orig acc b now).transfers = acc.transfers :=
  ⟨rfl, rfl, rfl, rfl⟩

theorem append_one_filter_skip {α : Type} (l : List α) (r : α) (p : α → Bool)
    (hr : p r = false) : (l ++ [r]).filter p = l.filter p := by
  rw [List.filter_append]
  simp [List.filter, hr]

theorem append_one_countP_skip {α : Type} (l : List α) (r : α) (p : α → Bool)
    (hr : p r = false) : (l ++ [r]).countP p = l.countP p := by
  rw [List.countP_append]
  simp [List.countP, List.countP.go, hr]

/-- The badge-id, history and transfer observables of one settlement step
are untouched for any badge id other than the processed one. -/
theorem settleStep_id_frame (orig : DB) (now : Nat) (L : Nat → Bool)
    (acc : DB) (b : Badge) (k : Nat) (hne : b.id ≠ k) :
    (settleStep orig now L acc b).badges.filter (fun x => decide (x.id = k)) =
      acc.badges.filter (fun x => decide (x.id = k)) ∧
    (settleStep orig now L acc b).history.filter (fun h => decide (h.badgeId = k)) =
      acc.history.filter (fun h => decide (h.badgeId = k)) ∧
    (settleStep orig now L acc b).transfers.countP (fun t => decide (t = k)) =
      acc.transfers.countP (fun t => decide (t = k)) := by
  have hbadges : (acc.badges.map (fun x => if x.id = b.id then
      { x with status := BadgeStatus.expired } else x)).filter
        (fun x => decide (x.id = k)) = acc.badges.filter (fun x => decide (x.id = k)) :=
    filter_guard_frame acc.badges (fun x => x.id = b.id) _ _ (fun a => rfl)
      (fun a hp hK => hne (by
        have ha : a.id = k := by simpa using hp
        have hK2 : a.id = b.id := hK
        rw [ha] at hK2
        exact hK2.symm))
  have hhist : ∀ o : Outcome,
      (acc.history ++ [(⟨b.holderId, b.id, b.scope, o, now⟩ : HistoryRow)]).filter
          (fun h => decide (h.badgeId = k)) =
        acc.history.filter (fun h => decide (h.badgeId = k)) := by
    intro o
    exact append_one_filter_skip _ _ _ (by simpa using hne)
  have htrans : (acc.transfers ++ [b.id]).countP (fun t => decide (t = k)) =
      acc.transfers.countP (fun t => decide (t = k)) :=
    append_one_countP_skip _ _ _ (by simpa using hne)
  unfold settleStep
  by_cases hq : b.actionsTaken ≥ b.minActionsRequired
  · rw [if_pos hq]
    have hpr := settleCompleted_proj orig acc b now
    refine ⟨?_, ?_, ?_⟩
    · rw [hpr.1]; exact hbadges
    · rw [hpr.2.1]; exact hhist _
    · rw [hpr.2.2.2]
      by_cases hp : orFalsy ((configFor orig b.scope).bind (fun c => c.rewardPco)) 500 > 0 ∧
          (holderWallet orig b).isSome
      · rw [if_pos hp]; exact htrans
      · rw [if_neg hp]
  · rw [if_neg hq]
    by_cases hL : L b.id = true
    · rw [if_pos hL]
      have hpr := settleAbandoned_proj orig acc b now
      refine ⟨?_, ?_, ?_⟩
      · rw [hpr.1]; exact hbadges
      · rw [hpr.2.1]; exact hhist _
      · rw [hpr.2.2.2]
    · rw [if_neg hL]
      exact ⟨rfl, rfl, rfl⟩

/-- One settlement step leaves any other user's reputation unchanged. -/
theorem settleStep_rep_frame (orig : DB) (now : Nat) (L : Nat → Bool)
    (acc : DB) (b : Badge) (h : Nat) (hne : h ≠ b.holderId) :
    userRep (settleStep orig now L acc b) h = userRep acc h := by
  have husers : ∀ db2 : DB, ∀ delta : Int, db2.users =
      (acc.users.map (fun u => if u.id = b.holderId then
        { u with reputation := u.reputation + delta } else u)) →
      userRep db2 h = userRep acc h := by
    intro db2 delta hdb
    unfold userRep
    rw [hdb]
    rw [find?_guard_frame acc.users (fun u => u.id = b.holderId)
      (fun u => { u with reputation := u.reputation + delta })
      (fun u => decide (u.id = h)) (fun a => rfl)
      (fun a hp hK => by
        have ha : a.id = h := by simpa using hp
        have hK2 : a.id = b.holderId := hK
        rw [ha] at hK2
        exact hne hK2)]
  unfold settleStep
  by_cases hq : b.actionsTaken ≥ b.minActionsRequired
  · rw [if_pos hq]
    exact husers _ _ (settleCompleted_proj orig acc b now).2.2.1
  · rw [if_neg hq]
    by_cases hL : L b.id = true
    · rw [if_pos hL]
      exact husers _ _ (settleAbandoned_proj orig acc b now).2.2.1
    · rw [if_neg hL]

/-- Folding settlement over badges that all have an id other than `k`
leaves the `k`-observables unchanged. -/
theorem settleFold_id_frame (orig : DB) (now : Nat) (L : Nat → Bool) (k : Nat)
    (l : List Badge) (hl : ∀ b ∈ l, b.id ≠ k) (acc : DB) :
    (l.foldl (settleStep orig now L) acc).badges.filter (fun x => decide (x.id = k)) =
      acc.badges.filter (fun x => decide (x.id = k)) ∧
    (l.foldl (settleStep orig now L) acc).history.filter (fun x => decide (x.badgeId = k)) =
      acc.history.filter (fun x => decide (x.badgeId = k)) ∧
    (l.foldl (settleStep orig now L) acc).transfers.countP (fun t => decide (t = k)) =
      acc.transfers.countP (fun t => decide (t = k)) := by
  induction l generalizing acc with
  | nil => exact ⟨rfl, rfl, rfl⟩
  | cons b t ih =>
      have hb := hl b (List.mem_cons_self b t)
      have hstep := settleStep_id_frame orig now L acc b k hb
      have ht := ih (fun x hx => hl x (List.mem_cons_of_mem b hx)) (settleStep orig now L acc b)
      rw [List.foldl_cons]
      exact ⟨ht.1.trans hstep.1, ht.2.1.trans hstep.2.1, ht.2.2.trans hstep.2.2⟩

/-- Folding settlement over badges whose holders all differ from `h` leaves
user `h`'s reputation unchanged. -/
theorem settleFold_rep_frame (orig : DB) (now : Nat) (L : Nat → Bool) (h : Nat)
    (l : List Badge) (hl : ∀ b ∈ l, b.holderId ≠ h) (acc : DB) :
    userRep (l.foldl (settleStep orig now L) acc) h = userRep acc h := by
  induction l generalizing acc with
  | nil => rfl
  | cons b t ih =>
      have hb := hl b (List.mem_cons_self b t)
      have hrep := settleStep_rep_frame orig now L acc b h (fun he => hb he.symm)
      have ht := ih (fun x hx => hl x (List.mem_cons_of_mem b hx)) (settleStep orig now L acc b)
      rw [List.foldl_cons]
      exact ht.trans hrep

/-- The settlement sweep leaves every badge id absent from its selection
untouched: same badge rows, no new history rows, no transfers for it. -/
theorem processExpired_frame_id (db : DB) (now : Nat) (L : Nat → Bool) (k : Nat)
    (hsel : ∀ b ∈ expiredSelection db now, b.id ≠ k) :
    (processExpiredBadges db now L).badges.filter (fun x => decide (x.id = k)) =
      db.badges.filter (fun x => decide (x.id = k)) ∧
    (processExpiredBadges db now L).history.filter (fun x => decide (x.badgeId = k)) =
      db.history.filter (fun x => decide (x.badgeId = k)) ∧
    (processExpiredBadges db now L).transfers.countP (fun t => decide (t = k)) =
      db.transfers.countP (fun t => decide (t = k)) :=
  settleFold_id_frame db now L k (expiredSelection db now) hsel db

/-! ### What badge assignment creates -/

/-- `assignNewBadge` either finds no eligible candidate and does nothing, or
offers one fresh badge (id `nextId`) with its single invitation to the
picked eligible user. -/
theorem assignNewBadge_cases (db : DB) (s : Scope) (cfg : ConfigRow) (now p1 p2 : Nat) :
    (eligibleUsers db s cfg now = [] ∧ assignNewBadge db s cfg now p1 p2 = db) ∨
    (∃ u, u ∈ eligibleUsers db s cfg now ∧
      u = (eligibleUsers db s cfg now).getD
        (p1 % (eligibleUsers db s cfg now).length) dummyUser ∧
      assignNewBadge db s cfg now p1 p2 =
        { db with
          badges := db.badges ++
            [⟨db.nextId, s, u.id, .offered, p2 % 5 + 3, none, none, 0, 5⟩]
          invitations := db.invitations ++
            [⟨db.nextId + 1, db.nextId, u.id, now, now + invitationTimeoutHours, none⟩]
          nextId := db.nextId + 2 }) := by
  by_cases he : (eligibleUsers db s cfg now).isEmpty = true
  · left
    refine ⟨List.isEmpty_iff.mp he, ?_⟩
    unfold assignNewBadge
    dsimp only
    rw [he]
    rfl
  · right
    have hne : eligibleUsers db s cfg now ≠ [] := by
      intro hnil
      rw [List.isEmpty_iff] at he
      exact he hnil
    have hlen : 0 < (eligibleUsers db s cfg now).length := List.length_pos.mpr hne
    have hlt : p1 % (eligibleUsers db s cfg now).length <
        (eligibleUsers db s cfg now).length := Nat.mod_lt _ hlen
    refine ⟨(eligibleUsers db s cfg now).getD
      (p1 % (eligibleUsers db s cfg now).length) dummyUser, ?_, rfl, ?_⟩
    · rw [List.getD_eq_getElem _ _ hlt]
      exact List.getElem_mem hlt
    · unfold assignNewBadge
      dsimp only
      rw [Bool.not_eq_true] at he
      rw [he]
      rfl

/-- Every badge after `assignNewBadge` is an old badge or has a fresh id. -/
theorem assignNewBadge_badges_mem (db : DB) (s : Scope) (cfg : ConfigRow) (now p1 p2 : Nat) :
    (∀ x ∈ (assignNewBadge db s cfg now p1 p2).badges,
      x ∈ db.badges ∨ (db.nextId ≤ x.id ∧ x.status = .offered ∧ x.scope = s)) ∧
    db.nextId ≤ (assignNewBadge db s cfg now p1 p2).nextId := by
  rcases assignNewBadge_cases db s cfg now p1 p2 with ⟨_, heq⟩ | ⟨u, _, _, heq⟩
  · rw [heq]
    exact ⟨fun x hx => Or.inl hx, le_refl _⟩
  · rw [heq]
    constructor
    · intro x hx
      rcases List.mem_append.mp hx with hold | hnew
      · exact Or.inl hold
      · rw [List.mem_singleton] at hnew
        subst hnew
        exact Or.inr ⟨le_refl _, rfl, rfl⟩
    · exact Nat.le_add_right _ _

/-- Iterating the deficit loop: badges are old or fresh-id offered ones. -/
theorem assignLoop_badges_mem (s : Scope) (cfg : ConfigRow) (now : Nat) (n : Nat)
    (rs : List (Nat × Nat)) (db : DB) :
    (∀ x ∈ (assignLoop s cfg now n rs db).badges,
      x ∈ db.badges ∨ (db.nextId ≤ x.id ∧ x.status = .offered ∧ x.scope = s)) ∧
    db.nextId ≤ (assignLoop s cfg now n rs db).nextId := by
  induction n generalizing rs db with
  | zero => exact ⟨fun x hx => Or.inl hx, le_refl _⟩
  | succ m ih =>
      unfold assignLoop
      have h1 := assignNewBadge_badges_mem db s cfg now (rs.headD (0, 0)).1 (rs.headD (0, 0)).2
      have h2 := ih rs.tail (assignNewBadge db s cfg now (rs.headD (0, 0)).1 (rs.headD (0, 0)).2)
      constructor
      · intro x hx
        rcases h2.1 x hx with hmid | hfresh
        · rcases h1.1 x hmid with hold | hfresh1
          · exact Or.inl hold
          · exact Or.inr hfresh1
        · exact Or.inr ⟨le_trans h1.2 hfresh.1, hfresh.2⟩
      · exact le_trans h1.2 h2.2

/-- `checkAndAssignBadges` only adds fresh-id offered badges of the scope. -/
theorem checkAndAssign_badges_mem (db : DB) (s : Scope) (now : Nat)
    (rs : List (Nat × Nat)) :
    ∀ x ∈ (checkAndAssignBadges db s now rs).badges,
      x ∈ db.badges ∨ (db.nextId ≤ x.id ∧ x.status = .offered ∧ x.scope = s) := by
  unfold checkAndAssignBadges
  intro x hx
  have hcfg := getOrCreateConfig_frame db s
  have hl := assignLoop_badges_mem s (getOrCreateConfig db s).1 now
    (ceilDiv (activeMemberCount (getOrCreateConfig db s).2 s now)
      (getOrCreateConfig db s).1.membersPerBadge -
      scopeBadgeCount (getOrCreateConfig db s).2 s) rs (getOrCreateConfig db s).2
  rcases hl.1 x hx with hold | hfresh
  · rw [hcfg.2.2.2.2.2.2.2.1] at hold
    exact Or.inl hold
  · rw [hcfg.2.2.2.2.2.2.2.2.2.2.2.2] at hfresh
    exact Or.inr hfresh

/-! ### C10: a passed badge is penalized exactly once and never settled
again -/

/-- C10.  A successful `passBadge` sets the badge `abandoned` (all rows of
its id), appends exactly one `abandoned` history row for it, debits the
holder's reputation by exactly 3, and — because the settlement sweep
selects only `active` badges — any later settlement sweep leaves the badge,
its history rows and its transfers untouched. -/
theorem c10_pass_settled_once (db : DB) (uid bid reason now : Nat)
    (rands : List (Nat × Nat)) (b : Badge)
    (hfb : db.badges.find? (fun x =>
      decide (x.id = bid ∧ x.holderId = uid ∧ x.status = .active)) = some b)
    (hfresh : ∀ x ∈ db.badges, x.id < db.nextId)
    (huser : (db.users.find? (fun u => decide (u.id = uid))).isSome = true) :
    (passBadge db uid bid reason now rands).1 = none ∧
    (∀ x ∈ (passBadge db uid bid reason now rands).2.badges, x.id = bid →
      x.status = .abandoned) ∧
    (passBadge db uid bid reason now rands).2.history.filter
        (fun h => decide (h.badgeId = bid)) =
      db.history.filter (fun h => decide (h.badgeId = bid)) ++
        [⟨uid, bid, b.scope, .abandoned, now⟩] ∧
    userRep (passBadge db uid bid reason now rands).2 uid = userRep db uid - 3 ∧
    (∀ now2 L2,
      (∀ x ∈ (processExpiredBadges (passBadge db uid bid reason now rands).2 now2 L2).badges,
        x.id = bid → x.status = .abandoned) ∧
      (processExpiredBadges (passBadge db uid bid reason now rands).2 now2 L2).history.filter
          (fun h => decide (h.badgeId = bid)) =
        (passBadge db uid bid reason now rands).2.history.filter
          (fun h => decide (h.badgeId = bid)) ∧
      (processExpiredBadges (passBadge db uid bid reason now rands).2 now2 L2).transfers.countP
          (fun t => decide (t = bid)) =
        (passBadge db uid bid reason now rands).2.transfers.countP
          (fun t => decide (t = bid))) := by
  have hbmem := List.mem_of_find?_eq_some hfb
  have hbp := List.find?_some hfb
  have hbp2 : b.id = bid ∧ b.holderId = uid ∧ b.status = .active := by simpa using hbp
  have hbid : b.id = bid := hbp2.1
  have hbidlt : bid < db.nextId := hbid ▸ hfresh b hbmem
  unfold passBadge
  rw [hfb]
  dsimp only
  set db1 : DB := { db with
    modActions := db.modActions ++
      [(⟨db.nextId, bid, .badgeKind, bid, .passed, some reason, none⟩ : ModAction)]
    nextId := db.nextId + 1 } with hdb1
  set db2 : DB := updateBadge db1 bid
    (fun x => { x with status := .abandoned, endDate := some now }) with hdb2
  set db3 : DB := { db2 with history := db2.history ++
    [(⟨uid, bid, b.scope, .abandoned, now⟩ : HistoryRow)] } with hdb3
  set db4 : DB := adjustReputation db3 uid (-3) with hdb4
  have habandoned : ∀ x ∈ db4.badges, x.id = bid → x.status = .abandoned := by
    intro x hx hxid
    have hx2 : x ∈ db1.badges.map
        (fun z => if z.id = bid
          then { z with status := BadgeStatus.abandoned, endDate := some now }
          else z) := hx
    simp only [List.mem_map] at hx2
    obtain ⟨a, _, hax⟩ := hx2
    by_cases hid : a.id = bid
    · rw [if_pos hid] at hax
      subst hax
      rfl
    · rw [if_neg hid] at hax
      subst hax
      exact absurd hxid hid
  have hfinal : ∀ x ∈ (checkAndAssignBadges db4 b.scope now rands).badges, x.id = bid →
      x.status = .abandoned := by
    intro x hx hxid
    rcases checkAndAssign_badges_mem db4 b.scope now rands x hx with hold | hnew
    · exact habandoned x hold hxid
    · exfalso
      have : db4.nextId = db.nextId + 1 := rfl
      rw [this, hxid] at hnew
      omega
  have hhist4 : db4.history.filter (fun h => decide (h.badgeId = bid)) =
      db.history.filter (fun h => decide (h.badgeId = bid)) ++
        [⟨uid, bid, b.scope, .abandoned, now⟩] := by
    show (db2.history ++ _).filter _ = _
    rw [List.filter_append]
    have h2 : db2.history = db.history := rfl
    rw [h2]
    congr 1
    simp [List.filter]
  have hrep4 : userRep db4 uid = userRep db uid - 3 := by
    have h3 : userRep db3 uid = userRep db uid := rfl
    have := userRep_adjust_self db3 uid (-3) (by
      have : db3.users = db.users := rfl
      rw [this]
      exact huser)
    rw [hdb4.symm] at this
    rw [this, h3]
    rfl
  have hcframe := checkAndAssign_frame db4 b.scope now rands
  have hchist : (checkAndAssignBadges db4 b.scope now rands).history = db4.history :=
    hcframe.2.2.2.2.2.2.2.1
  have hctrans : (checkAndAssignBadges db4 b.scope now rands).transfers = db4.transfers :=
    hcframe.2.2.2.2.2.2.2.2.2
  have hcusers : (checkAndAssignBadges db4 b.scope now rands).users = db4.users :=
    hcframe.1
  refine ⟨rfl, hfinal, ?_, ?_, ?_⟩
  · rw [hchist]
    exact hhist4
  · show userRep (checkAndAssignBadges db4 b.scope now rands) uid = _
    unfold userRep
    rw [hcusers]
    exact hrep4
  · intro now2 L2
    have hnosel : ∀ x ∈ expiredSelection (checkAndAssignBadges db4 b.scope now rands) now2,
        x.id ≠ bid := by
      intro x hx hxid
      have hx2 := List.mem_filter.mp hx
      have hact : x.status = .active := by
        have := hx2.2
        simp only [Bool.and_eq_true, decide_eq_true_eq] at this
        exact this.1.1
      have := hfinal x hx2.1 hxid
      rw [this] at hact
      exact absurd hact (by simp)
    have hframe := processExpired_frame_id
      (checkAndAssignBadges db4 b.scope now rands) now2 L2 bid hnosel
    refine ⟨?_, hframe.2.1, hframe.2.2⟩
    intro x hx hxid
    have hxin : x ∈ (processExpiredBadges (checkAndAssignBadges db4 b.scope now rands)
        now2 L2).badges.filter (fun z => decide (z.id = bid)) :=
      List.mem_filter.mpr ⟨hx, by simp [hxid]⟩
    rw [hframe.1] at hxin
    have := List.mem_filter.mp hxin
    exact hfinal x this.1 hxid

/-! ### C1: settlement of a quota-missing badge (abandoned path) -/

theorem find?_isSome_map_pres {α : Type} (l : List α) (g : α → α) (p : α → Bool)
    (h : ∀ a, p (g a) = p a) : ((l.map g).find? p).isSome = (l.find? p).isSome := by
  rw [List.find?_map]
  have hpg : (p ∘ g) = p := funext h
  rw [hpg]
  cases l.find? p <;> rfl

/-- One settlement step preserves whether a user row with a given id exists. -/
theorem settleStep_user_pres (orig : DB) (now : Nat) (L : Nat → Bool)
    (acc : DB) (b : Badge) (h : Nat) :
    ((settleStep orig now L acc b).users.find? (fun u => decide (u.id = h))).isSome =
      ((acc.users.find? (fun u => decide (u.id = h))).isSome) := by
  have hmap : ∀ delta : Int,
      ((acc.users.map (fun u => if u.id = b.holderId then
        { u with reputation := u.reputation + delta } else u)).find?
          (fun u => decide (u.id = h))).isSome =
      ((acc.users.find? (fun u => decide (u.id = h))).isSome) := by
    intro delta
    apply find?_isSome_map_pres
    intro a
    by_cases hk : a.id = b.holderId
    · rw [if_pos hk]
    · rw [if_neg hk]
  unfold settleStep
  by_cases hq : b.actionsTaken ≥ b.minActionsRequired
  · rw [if_pos hq]
    rw [(settleCompleted_proj orig acc b now).2.2.1]
    exact hmap _
  · rw [if_neg hq]
    by_cases hL : L b.id = true
    · rw [if_pos hL]
      rw [(settleAbandoned_proj orig acc b now).2.2.1]
      exact hmap _
    · rw [if_neg hL]

/-- Folding settlement preserves whether a user row exists. -/
theorem settleFold_user_pres (orig : DB) (now : Nat) (L : Nat → Bool) (h : Nat)
    (l : List Badge) (acc : DB) :
    ((l.foldl (settleStep orig now L) acc).users.find?
      (fun u => decide (u.id = h))).isSome =
    ((acc.users.find? (fun u => decide (u.id = h))).isSome) := by
  induction l generalizing acc with
  | nil => rfl
  | cons b t ih =>
      rw [List.foldl_cons]
      exact (ih (settleStep orig now L acc b)).trans
        (settleStep_user_pres orig now L acc b h)

/-- The abandoned path applied to its own badge: status expired everywhere,
one abandoned history row, the penalty delta applied, transfers unchanged. -/
theorem settleAbandoned_target (orig acc : DB) (b : Badge) (now : Nat)
    (hex : ((acc.users.find? (fun u => decide (u.id = b.holderId))).isSome) = true) :
    (∀ x ∈ (settleAbandoned orig acc b now).badges, x.id = b.id →
      x.status = .expired) ∧
    (settleAbandoned orig acc b now).history = acc.history ++
      [⟨b.holderId, b.id, b.scope, .abandoned, now⟩] ∧
    userRep (settleAbandoned orig acc b now) b.holderId =
      userRep acc b.holderId + abandonRepDelta orig b ∧
    (settleAbandoned orig acc b now).transfers = acc.transfers := by
  have hpr := settleAbandoned_proj orig acc b now
  refine ⟨?_, hpr.2.1, ?_, hpr.2.2.2⟩
  · intro x hx hxid
    rw [hpr.1] at hx
    simp only [List.mem_map] at hx
    obtain ⟨a, _, hax⟩ := hx
    by_cases hid : a.id = b.id
    · rw [if_pos hid] at hax
      subst hax
      rfl
    · rw [if_neg hid] at hax
      subst hax
      exact absurd hxid hid
  · unfold userRep
    rw [hpr.2.2.1]
    rw [find?_guard_image acc.users (fun u => u.id = b.holderId)
      (fun u => { u with reputation := u.reputation + abandonRepDelta orig b })
      (fun u => decide (u.id = b.holderId)) (fun a => rfl)
      (fun a hp => by simpa using hp)]
    cases hu : acc.users.find? (fun u => decide (u.id = b.holderId)) with
    | none => rw [hu] at hex; exact absurd hex (by simp)
    | some u => rfl

/-- Core settlement fact shared by several results: under the default
configuration, a badge selected by the sweep with
`actions_taken < min_actions_required` whose own settlement commits ends
with status `expired`, exactly one new `abandoned` history row, the
holder's reputation decreased by 3, and no token transfer. -/
theorem settleSweep_abandoned_core (db : DB) (now : Nat) (L : Nat → Bool) (b : Badge)
    (hsel : b ∈ expiredSelection db now)
    (hq : b.actionsTaken < b.minActionsRequired)
    (hL : L b.id = true)
    (hids : ((expiredSelection db now).map (fun x => x.id)).Nodup)
    (hholders : ((expiredSelection db now).map (fun x => x.holderId)).Nodup)
    (hcfg : configFor db b.scope = none ∨
      configFor db b.scope = some (defaultConfigRow b.scope)) :
    (∀ x ∈ (processExpiredBadges db now L).badges, x.id = b.id →
      x.status = .expired) ∧
    (processExpiredBadges db now L).history.filter
        (fun h => decide (h.badgeId = b.id)) =
      db.history.filter (fun h => decide (h.badgeId = b.id)) ++
        [⟨b.holderId, b.id, b.scope, .abandoned, now⟩] ∧
    userRep (processExpiredBadges db now L) b.holderId =
      userRep db b.holderId - 3 ∧
    (processExpiredBadges db now L).transfers.countP (fun t => decide (t = b.id)) =
      db.transfers.countP (fun t => decide (t = b.id)) := by
  have hdelta : abandonRepDelta db b = -3 := by
    unfold abandonRepDelta
    rcases hcfg with hc | hc
    · rw [hc]
      rfl
    · rw [hc]
      rfl
  obtain ⟨l1, l2, hsplit⟩ := List.append_of_mem hsel
  have hl1 : ∀ x ∈ l1, x.id ≠ b.id ∧ x.holderId ≠ b.holderId := by
    intro x hx
    rw [hsplit] at hids hholders
    constructor
    · intro he
      rw [List.map_append, List.nodup_append] at hids
      exact hids.2.2 (List.mem_map_of_mem _ hx)
        (by rw [List.map_cons, he]; exact List.mem_cons_self _ _)
    · intro he
      rw [List.map_append, List.nodup_append] at hholders
      exact hholders.2.2 (List.mem_map_of_mem _ hx)
        (by rw [List.map_cons, he]; exact List.mem_cons_self _ _)
  have hl2 : ∀ x ∈ l2, x.id ≠ b.id ∧ x.holderId ≠ b.holderId := by
    intro x hx
    rw [hsplit] at hids hholders
    constructor
    · intro he
      rw [List.map_append, List.nodup_append] at hids
      have := hids.2.1
      rw [List.map_cons, List.nodup_cons] at this
      exact this.1 (he ▸ List.mem_map_of_mem _ hx)
    · intro he
      rw [List.map_append, List.nodup_append] at hholders
      have := hholders.2.1
      rw [List.map_cons, List.nodup_cons] at this
      exact this.1 (he ▸ List.mem_map_of_mem _ hx)
  have hexdb : ((db.users.find? (fun u => decide (u.id = b.holderId))).isSome) = true := by
    have hp := List.mem_filter.mp hsel
    have := hp.2
    simp only [Bool.and_eq_true] at this
    have hany := this.2
    rw [List.any_eq_true] at hany
    obtain ⟨u, hu, hup⟩ := hany
    rw [List.find?_isSome]
    exact ⟨u, hu, by simpa using hup⟩
  unfold processExpiredBadges
  rw [hsplit, List.foldl_append, List.foldl_cons]
  have hA := settleFold_id_frame db now L b.id l1 (fun x hx => (hl1 x hx).1) db
  have hArep := settleFold_rep_frame db now L b.holderId l1
    (fun x hx => (hl1 x hx).2) db
  have hAex : (((l1.foldl (settleStep db now L) db).users.find?
      (fun u => decide (u.id = b.holderId))).isSome) = true :=
    (settleFold_user_pres db now L b.holderId l1 db).trans hexdb
  set A : DB := l1.foldl (settleStep db now L) db with hAdef
  have hstepB : settleStep db now L A b = settleAbandoned db A b now := by
    unfold settleStep
    rw [if_neg (by omega), if_pos hL]
  rw [hstepB]
  have hB := settleAbandoned_target db A b now hAex
  set B : DB := settleAbandoned db A b now with hBdef
  have hl2f := settleFold_id_frame db now L b.id l2 (fun x hx => (hl2 x hx).1) B
  have hl2rep := settleFold_rep_frame db now L b.holderId l2
    (fun x hx => (hl2 x hx).2) B
  refine ⟨?_, ?_, ?_, ?_⟩
  · intro x hx hxid
    have hxin : x ∈ (l2.foldl (settleStep db now L) B).badges.filter
        (fun z => decide (z.id = b.id)) :=
      List.mem_filter.mpr ⟨hx, by simp [hxid]⟩
    rw [hl2f.1] at hxin
    have := List.mem_filter.mp hxin
    exact hB.1 x this.1 hxid
  · rw [hl2f.2.1, hB.2.1, List.filter_append, hA.2.1]
    congr 1
    simp [List.filter]
  · rw [hl2rep, hB.2.2.1, hArep, hdelta]
    omega
  · rw [hl2f.2.2, (by rfl : B.transfers = A.transfers), hA.2.2]

/-- C1.  Under the default configuration (no stored config row, or the
lazily-created default one), a badge selected by the settlement sweep with
`actions_taken < min_actions_required` whose own settlement commits ends
with: status `expired` (terminal), exactly one new `badge_history` row with
outcome `abandoned`, the holder's reputation decreased by 3, and no token
transfer initiated for it. -/
theorem c1_settlement_abandoned (db : DB) (now : Nat) (L : Nat → Bool) (b : Badge)
    (hsel : b ∈ expiredSelection db now)
    (hq : b.actionsTaken < b.minActionsRequired)
    (hL : L b.id = true)
    (hids : ((expiredSelection db now).map (fun x => x.id)).Nodup)
    (hholders : ((expiredSelection db now).map (fun x => x.holderId)).Nodup)
    (hcfg : configFor db b.scope = none ∨
      configFor db b.scope = some (defaultConfigRow b.scope)) :
    (∀ x ∈ (processExpiredBadges db now L).badges, x.id = b.id →
      x.status = .expired) ∧
    (processExpiredBadges db now L).history.filter
        (fun h => decide (h.badgeId = b.id)) =
      db.history.filter (fun h => decide (h.badgeId = b.id)) ++
        [⟨b.holderId, b.id, b.scope, .abandoned, now⟩] ∧
    userRep (processExpiredBadges db now L) b.holderId =
      userRep db b.holderId - 3 ∧
    (processExpiredBadges db now L).transfers.countP (fun t => decide (t = b.id)) =
      db.transfers.countP (fun t => decide (t = b.id)) :=
  settleSweep_abandoned_core db now L b hsel hq hL hids hholders hcfg

/-- Concrete fixture for settlement: badge 0 active for user 1 (reputation
10), quota 5 but only 2 actions taken, duty window already over at hour
1100; no config row stored for the scope. -/
def fixSettleDB : DB :=
  { users := [fixUser1]
    groups := [{ id := 7, isActive := true }]
    groupMembers := [(7, 1)]
    pillars := [], posts := [], comments := [], flags := []
    badges := [{ id := 0, scope := fixScope, holderId := 1, status := .active
                 dutyDays := 3, startDate := some 1000, endDate := some 1072
                 actionsTaken := 2 }]
    invitations := []
    history := [], configs := [], modActions := [], transfers := []
    nextId := 2 }

/-- Witness for C1 at the concrete fixture. -/
theorem c1_settlement_abandoned_witness :
    (∀ x ∈ (processExpiredBadges fixSettleDB 1100 (fun _ => true)).badges, x.id = 0 →
      x.status = .expired) ∧
    (processExpiredBadges fixSettleDB 1100 (fun _ => true)).history.filter
        (fun h => decide (h.badgeId = 0)) =
      fixSettleDB.history.filter (fun h => decide (h.badgeId = 0)) ++
        [⟨1, 0, fixScope, .abandoned, 1100⟩] ∧
    userRep (processExpiredBadges fixSettleDB 1100 (fun _ => true)) 1 =
      userRep fixSettleDB 1 - 3 ∧
    (processExpiredBadges fixSettleDB 1100 (fun _ => true)).transfers.countP
        (fun t => decide (t = 0)) =
      fixSettleDB.transfers.countP (fun t => decide (t = 0)) :=
  c1_settlement_abandoned fixSettleDB 1100 (fun _ => true)
    { id := 0, scope := fixScope, holderId := 1, status := .active, dutyDays := 3
      startDate := some 1000, endDate := some 1072, actionsTaken := 2 }
    (by decide) (by decide) rfl (by decide) (by decide) (Or.inl (by decide))

/-! ### C6: per-item error isolation of the three sweeps -/

theorem foldl_filter_skip {α β : Type} (l : List α) (bad : α → Bool)
    (g : β → α → β) (acc : β) :
    l.foldl (fun a s => if bad s then a else g a s) acc =
      (l.filter (fun s => !bad s)).foldl g acc := by
  induction l generalizing acc with
  | nil => rfl
  | cons s t ih =>
      rw [List.foldl_cons, List.filter_cons]
      by_cases hf : bad s = true
      · simp [hf, ih]
      · rw [Bool.not_eq_true] at hf
        simp [hf, ih]

/-- A selected badge whose own (abandoned-path) settlement fails is rolled
back alone: its badge rows and history are untouched by the sweep. -/
theorem settleSweep_skip_frame (db : DB) (now : Nat) (L : Nat → Bool) (b : Badge)
    (hsel : b ∈ expiredSelection db now)
    (hq : b.actionsTaken < b.minActionsRequired)
    (hL : L b.id = false)
    (hids : ((expiredSelection db now).map (fun x => x.id)).Nodup) :
    (processExpiredBadges db now L).badges.filter (fun x => decide (x.id = b.id)) =
      db.badges.filter (fun x => decide (x.id = b.id)) ∧
    (processExpiredBadges db now L).history.filter
        (fun x => decide (x.badgeId = b.id)) =
      db.history.filter (fun x => decide (x.badgeId = b.id)) := by
  obtain ⟨l1, l2, hsplit⟩ := List.append_of_mem hsel
  have hl1 : ∀ x ∈ l1, x.id ≠ b.id := by
    intro x hx he
    rw [hsplit, List.map_append, List.nodup_append] at hids
    exact hids.2.2 (List.mem_map_of_mem _ hx)
      (by rw [List.map_cons, he]; exact List.mem_cons_self _ _)
  have hl2 : ∀ x ∈ l2, x.id ≠ b.id := by
    intro x hx he
    rw [hsplit, List.map_append, List.nodup_append] at hids
    have := hids.2.1
    rw [List.map_cons, List.nodup_cons] at this
    exact this.1 (he ▸ List.mem_map_of_mem _ hx)
  unfold processExpiredBadges
  rw [hsplit, List.foldl_append, List.foldl_cons]
  have hA := settleFold_id_frame db now L b.id l1 hl1 db
  set A : DB := l1.foldl (settleStep db now L) db with hAdef
  have hstep : settleStep db now L A b = A := by
    unfold settleStep
    rw [if_neg (by omega), if_neg (by rw [hL]; simp)]
  rw [hstep]
  have hl2f := settleFold_id_frame db now L b.id l2 hl2 A
  exact ⟨hl2f.1.trans hA.1, hl2f.2.1.trans hA.2.1⟩

/-- A failing first item aborts the whole invitation-timeout sweep. -/
theorem timeoutSweep_aborts (db : DB) (now : Nat) (itemFail : Nat → Bool)
    (rands : List (Nat × Nat)) (it : Invitation × Badge) (rest : List (Invitation × Badge))
    (hsel : expiredInvitations db now = it :: rest)
    (hfail : itemFail it.1.id = true) :
    processInvitationTimeouts db now itemFail rands = (some .itemFailure, db) := by
  unfold processInvitationTimeouts
  rw [hsel]
  unfold timeoutLoop
  rw [if_pos hfail]

/-- C6, corrected.  The balance-check sweep and the settlement sweep do
isolate per-item errors: a failing scope is skipped and every other scope is
processed exactly as if the failure were absent; a failing badge settlement
is rolled back alone (its rows untouched) while any other quota-missing
badge still settles.  The invitation-timeout sweep does not: it runs as one
transaction with no per-item catch, so a failing item aborts the sweep —
with a failing first item nothing at all is processed and the error
propagates to the job wrapper. -/
theorem c6_amended :
    (∀ (db : DB) (now : Nat) (scopeFail : Scope → Bool)
        (rands : Scope → List (Nat × Nat)),
      checkAllScopesBadgeBalance db now scopeFail rands =
        ((sweepScopes db).filter (fun s => !scopeFail s)).foldl
          (fun acc s => checkAndAssignBadges acc s now (rands s)) db) ∧
    (∀ (db : DB) (now : Nat) (L : Nat → Bool) (b1 b2 : Badge),
      b1 ∈ expiredSelection db now →
      b1.actionsTaken < b1.minActionsRequired → L b1.id = false →
      ((expiredSelection db now).map (fun x => x.id)).Nodup →
      ((expiredSelection db now).map (fun x => x.holderId)).Nodup →
      b2 ∈ expiredSelection db now →
      b2.actionsTaken < b2.minActionsRequired → L b2.id = true →
      (configFor db b2.scope = none ∨
        configFor db b2.scope = some (defaultConfigRow b2.scope)) →
      ((processExpiredBadges db now L).badges.filter
          (fun x => decide (x.id = b1.id)) =
        db.badges.filter (fun x => decide (x.id = b1.id)) ∧
       (processExpiredBadges db now L).history.filter
          (fun x => decide (x.badgeId = b1.id)) =
        db.history.filter (fun x => decide (x.badgeId = b1.id))) ∧
      ((∀ x ∈ (processExpiredBadges db now L).badges, x.id = b2.id →
          x.status = .expired) ∧
       (processExpiredBadges db now L).history.filter
          (fun h => decide (h.badgeId = b2.id)) =
        db.history.filter (fun h => decide (h.badgeId = b2.id)) ++
          [⟨b2.holderId, b2.id, b2.scope, .abandoned, now⟩])) ∧
    (∀ (db : DB) (now : Nat) (itemFail : Nat → Bool) (rands : List (Nat × Nat))
        (it : Invitation × Badge) (rest : List (Invitation × Badge)),
      expiredInvitations db now = it :: rest → itemFail it.1.id = true →
      processInvitationTimeouts db now itemFail rands = (some .itemFailure, db)) := by
  refine ⟨?_, ?_, ?_⟩
  · intro db now scopeFail rands
    unfold checkAllScopesBadgeBalance
    exact foldl_filter_skip (sweepScopes db) scopeFail
      (fun acc s => checkAndAssignBadges acc s now (rands s)) db
  · intro db now L b1 b2 hsel1 hq1 hL1 hids hholders hsel2 hq2 hL2 hcfg2
    have hcore := settleSweep_abandoned_core db now L b2 hsel2 hq2 hL2 hids hholders hcfg2
    exact ⟨settleSweep_skip_frame db now L b1 hsel1 hq1 hL1 hids,
      hcore.1, hcore.2.1⟩
  · intro db now itemFail rands it rest hsel hfail
    exact timeoutSweep_aborts db now itemFail rands it rest hsel hfail

/-- Concrete fixture for the timeout sweep: two offered badges (0 and 2)
whose invitations (1 and 3) are both long expired at hour 2000. -/
def fixTimeoutDB : DB :=
  { users := [{ id := 1, mode := true, reputation := 10, createdAt := 0
                lastLogin := 1500, wallet := some 41 },
              { id := 2, mode := true, reputation := 10, createdAt := 0
                lastLogin := 1500, wallet := some 42 }]
    groups := [{ id := 7, isActive := true }]
    groupMembers := [(7, 1), (7, 2)]
    pillars := [], posts := [], comments := [], flags := []
    badges := [{ id := 0, scope := fixScope, holderId := 1, status := .offered
                 dutyDays := 3 },
               { id := 2, scope := fixScope, holderId := 2, status := .offered
                 dutyDays := 3 }]
    invitations := [{ id := 1, badgeId := 0, userId := 1, invitedAt := 1000
                      expiresAt := 1012 },
                    { id := 3, badgeId := 2, userId := 2, invitedAt := 1000
                      expiresAt := 1012 }]
    history := [], configs := [], modActions := [], transfers := []
    nextId := 4 }

/-- Counterexample to C6 as stated.  Two invitations (ids 1 and 3) are both
expired; processing of the first raises, and the timeout sweep aborts as a
whole: invitation 3 is left unresponded and unprocessed, although the same
sweep with no failure processes both.  So an error on one item does halt
the rest of the invitation-timeout sweep. -/
theorem c6_counterexample :
    processInvitationTimeouts fixTimeoutDB 2000 (fun i => decide (i = 1))
      [(0, 0), (0, 0)] = (some .itemFailure, fixTimeoutDB) ∧
    ((processInvitationTimeouts fixTimeoutDB 2000 (fun i => decide (i = 1))
      [(0, 0), (0, 0)]).2.invitations.any (fun i =>
        decide (i.id = 3 ∧ i.response = none ∧ i.expiresAt < 2000))) = true ∧
    ((processInvitationTimeouts fixTimeoutDB 2000 (fun _ => false)
      [(0, 0), (0, 0)]).2.invitations.any (fun i =>
        decide (i.id = 3 ∧ i.response = some .timeout))) = true := by
  decide

/-- Concrete fixture for the settlement part of the C6 witness: two expired
active badges (0 for user 1, 2 for user 2), both short of quota. -/
def fixSettle2DB : DB :=
  { users := [fixUser1,
      { id := 2, mode := true, reputation := 10, createdAt := 0, lastLogin := 900
        wallet := some 42 }]
    groups := [{ id := 7, isActive := true }]
    groupMembers := [(7, 1), (7, 2)]
    pillars := [], posts := [], comments := [], flags := []
    badges := [{ id := 0, scope := fixScope, holderId := 1, status := .active
                 dutyDays := 3, startDate := some 1000, endDate := some 1072
                 actionsTaken := 2 },
               { id := 2, scope := fixScope, holderId := 2, status := .active
                 dutyDays := 3, startDate := some 1000, endDate := some 1072
                 actionsTaken := 1 }]
    invitations := []
    history := [], configs := [], modActions := [], transfers := []
    nextId := 4 }

/-- Witness for the corrected C6 at concrete fixtures: the balance sweep
equality at the decline fixture, settlement isolation at the two-badge
fixture (badge 0's settlement fails, badge 2 still settles), and the
timeout-sweep abort at the two-invitation fixture. -/
theorem c6_amended_witness :
    (checkAllScopesBadgeBalance fixDeclineDB 1005 (fun _ => false) (fun _ => [(0, 0)]) =
      ((sweepScopes fixDeclineDB).filter (fun s => !(fun _ : Scope => false) s)).foldl
        (fun acc s => checkAndAssignBadges acc s 1005 ((fun _ : Scope => [(0, 0)]) s))
        fixDeclineDB) ∧
    (((processExpiredBadges fixSettle2DB 1100 (fun i => decide (i ≠ 0))).badges.filter
        (fun x => decide (x.id = 0)) =
      fixSettle2DB.badges.filter (fun x => decide (x.id = 0)) ∧
      (processExpiredBadges fixSettle2DB 1100 (fun i => decide (i ≠ 0))).history.filter
        (fun x => decide (x.badgeId = 0)) =
      fixSettle2DB.history.filter (fun x => decide (x.badgeId = 0))) ∧
     ((∀ x ∈ (processExpiredBadges fixSettle2DB 1100 (fun i => decide (i ≠ 0))).badges,
        x.id = 2 → x.status = .expired) ∧
      (processExpiredBadges fixSettle2DB 1100 (fun i => decide (i ≠ 0))).history.filter
        (fun h => decide (h.badgeId = 2)) =
      fixSettle2DB.history.filter (fun h => decide (h.badgeId = 2)) ++
        [⟨2, 2, fixScope, .abandoned, 1100⟩])) ∧
    (processInvitationTimeouts fixTimeoutDB 2000 (fun i => decide (i = 1))
      [(0, 0), (0, 0)] = (some .itemFailure, fixTimeoutDB)) := by
  refine ⟨?_, ?_, ?_⟩
  · exact c6_amended.1 fixDeclineDB 1005 (fun _ => false) (fun _ => [(0, 0)])
  · exact c6_amended.2.1 fixSettle2DB 1100 (fun i => decide (i ≠ 0))
      { id := 0, scope := fixScope, holderId := 1, status := .active, dutyDays := 3
        startDate := some 1000, endDate := some 1072, actionsTaken := 2 }
      { id := 2, scope := fixScope, holderId := 2, status := .active, dutyDays := 3
        startDate := some 1000, endDate := some 1072, actionsTaken := 1 }
      (by decide) (by decide) (by decide) (by decide) (by decide)
      (by decide) (by decide) (by decide) (Or.inl (by decide))
  · exact c6_amended.2.2 fixTimeoutDB 2000 (fun i => decide (i = 1)) [(0, 0), (0, 0)]
      (⟨{ id := 1, badgeId := 0, userId := 1, invitedAt := 1000, expiresAt := 1012 },
        { id := 0, scope := fixScope, holderId := 1, status := .offered, dutyDays := 3 }⟩)
      [⟨{ id := 3, badgeId := 2, userId := 2, invitedAt := 1000, expiresAt := 1012 },
        { id := 2, scope := fixScope, holderId := 2, status := .offered, dutyDays := 3 }⟩]
      (by decide) (by decide)

/-! ### C7: what one balance-check run creates (scenario A) -/

/-- Offering a badge to a user removes exactly that user from the eligible
set and leaves everyone else's eligibility unchanged. -/
theorem eligibleUsers_append_badge (db : DB) (b0 : Badge) (i0 : Invitation)
    (n0 h0 : Nat) (hh : b0.holderId = h0) (hconc : isConc b0.status = true)
    (s : Scope) (cfg : ConfigRow) (now : Nat) :
    eligibleUsers { db with badges := db.badges ++ [b0]
                            invitations := db.invitations ++ [i0]
                            nextId := n0 } s cfg now =
      (eligibleUsers db s cfg now).filter (fun v => !decide (v.id = h0)) := by
  unfold eligibleUsers
  rw [List.filter_filter]
  dsimp only
  apply List.filter_congr
  intro v _
  have hin : inScope { db with badges := db.badges ++ [b0], invitations := db.invitations ++ [i0], nextId := n0 } v s = inScope db v s := by
    unfold inScope
    cases s.stype <;> rfl
  have hconc2 : holdsConcurrentBadge { db with badges := db.badges ++ [b0], invitations := db.invitations ++ [i0], nextId := n0 } v.id =
      (holdsConcurrentBadge db v.id || decide (v.id = h0)) := by
    unfold holdsConcurrentBadge
    dsimp only
    rw [List.any_append]
    congr 1
    rw [List.any_cons, List.any_nil, hh, hconc, Bool.or_false, Bool.and_true]
    exact decide_eq_decide.mpr eq_comm
  rw [hin, hconc2]
  simp only [Bool.not_or]
  simp [Bool.and_assoc, Bool.and_comm, Bool.and_left_comm]
  rfl

/-- Filtering out the rows sharing a key with a present row, when keys are
unique, removes exactly one element. -/
theorem filter_ne_length {α : Type} (l : List α) (key : α → Nat) (u : α)
    (hu : u ∈ l) (hnd : (l.map key).Nodup) :
    (l.filter (fun v => !decide (key v = key u))).length = l.length - 1 := by
  induction l with
  | nil => exact absurd hu (List.not_mem_nil u)
  | cons a t ih =>
      rw [List.map_cons, List.nodup_cons] at hnd
      rcases List.mem_cons.mp hu with hua | hut
      · subst hua
        rw [List.filter_cons]
        have hd : (!decide (key u = key u)) = false := by simp
        rw [hd]
        rw [if_neg (by simp)]
        have hall : t.filter (fun v => !decide (key v = key u)) = t := by
          rw [List.filter_eq_self]
          intro x hx
          have : key x ≠ key u := by
            intro he
            exact hnd.1 (he ▸ List.mem_map_of_mem key hx)
          simp [this]
        rw [hall]
        simp
      · have hne : key a ≠ key u := by
          intro he
          exact hnd.1 (he ▸ List.mem_map_of_mem key hut)
        rw [List.filter_cons]
        rw [if_pos (by simp [hne])]
        have hlen := ih hut hnd.2
        have hpos : 0 < t.length := List.length_pos.mpr (by
          intro hnil
          rw [hnil] at hut
          exact List.not_mem_nil u hut)
        simp only [List.length_cons]
        omega

/-- C7, corrected.  With 120 active members, ratio 50 and no existing
badges, one balance-check run creates exactly 3 offered badges **provided
at least 3 candidates are eligible** (with only a non-empty eligible set
the run can create fewer — see the counterexample); the 3 badges go to
pairwise distinct users and each carries exactly one invitation expiring
12 hours after creation. -/
theorem c7_amended (db : DB) (s : Scope) (now : Nat) (r1 r2 r3 : Nat × Nat)
    (cfg : ConfigRow)
    (hcfg : configFor db s = some cfg)
    (hratio : cfg.membersPerBadge = 50)
    (hmem : activeMemberCount db s now = 120)
    (hcur : scopeBadgeCount db s = 0)
    (helig : 3 ≤ (eligibleUsers db s cfg now).length)
    (hnodup : (db.users.map (fun u => u.id)).Nodup) :
    ∃ (b1 b2 b3 : Badge) (i1 i2 i3 : Invitation),
      (checkAndAssignBadges db s now [r1, r2, r3]).badges =
        db.badges ++ [b1, b2, b3] ∧
      (checkAndAssignBadges db s now [r1, r2, r3]).invitations =
        db.invitations ++ [i1, i2, i3] ∧
      (b1.status = .offered ∧ b2.status = .offered ∧ b3.status = .offered) ∧
      (b1.scope = s ∧ b2.scope = s ∧ b3.scope = s) ∧
      (b1.id ≠ b2.id ∧ b1.id ≠ b3.id ∧ b2.id ≠ b3.id) ∧
      (b1.holderId ≠ b2.holderId ∧ b1.holderId ≠ b3.holderId ∧
        b2.holderId ≠ b3.holderId) ∧
      (i1.badgeId = b1.id ∧ i2.badgeId = b2.id ∧ i3.badgeId = b3.id) ∧
      (i1.userId = b1.holderId ∧ i2.userId = b2.holderId ∧ i3.userId = b3.holderId) ∧
      (i1.expiresAt = now + invitationTimeoutHours ∧
        i2.expiresAt = now + invitationTimeoutHours ∧
        i3.expiresAt = now + invitationTimeoutHours) ∧
      (i1.response = none ∧ i2.response = none ∧ i3.response = none) := by
  have hgoc : getOrCreateConfig db s = (cfg, db) := by
    unfold getOrCreateConfig
    rw [hcfg]
  have hloop : checkAndAssignBadges db s now [r1, r2, r3] =
      assignNewBadge (assignNewBadge (assignNewBadge db s cfg now r1.1 r1.2)
        s cfg now r2.1 r2.2) s cfg now r3.1 r3.2 := by
    unfold checkAndAssignBadges
    rw [hgoc]
    dsimp only
    rw [hmem, hratio, hcur]
    rw [show ceilDiv 120 50 - 0 = 3 from by decide]
    rfl
  rcases assignNewBadge_cases db s cfg now r1.1 r1.2 with ⟨hemp, _⟩ | ⟨u1, hu1, _, heq1⟩
  · rw [hemp] at helig
    simp at helig
  set D1 : DB := { db with
    badges := db.badges ++ [⟨db.nextId, s, u1.id, .offered, r1.2 % 5 + 3, none, none, 0, 5⟩]
    invitations := db.invitations ++
      [⟨db.nextId + 1, db.nextId, u1.id, now, now + invitationTimeoutHours, none⟩]
    nextId := db.nextId + 2 } with hD1def
  have hE1nd : ((eligibleUsers db s cfg now).map (fun u => u.id)).Nodup :=
    List.Nodup.sublist (List.Sublist.map _ (List.filter_sublist db.users)) hnodup
  have hshrink1 : eligibleUsers D1 s cfg now =
      (eligibleUsers db s cfg now).filter (fun v => !decide (v.id = u1.id)) := by
    rw [hD1def]
    exact eligibleUsers_append_badge db
      ⟨db.nextId, s, u1.id, .offered, r1.2 % 5 + 3, none, none, 0, 5⟩
      ⟨db.nextId + 1, db.nextId, u1.id, now, now + invitationTimeoutHours, none⟩
      (db.nextId + 2) u1.id rfl rfl s cfg now
  have hlen1 : (eligibleUsers D1 s cfg now).length =
      (eligibleUsers db s cfg now).length - 1 := by
    rw [hshrink1]
    exact filter_ne_length _ (fun u => u.id) u1 hu1 hE1nd
  rcases assignNewBadge_cases D1 s cfg now r2.1 r2.2 with ⟨hemp2, _⟩ | ⟨u2, hu2, _, heq2⟩
  · exfalso
    rw [hemp2] at hlen1
    simp only [List.length_nil] at hlen1
    omega
  have hu2m : u2 ∈ eligibleUsers db s cfg now ∧ u2.id ≠ u1.id := by
    rw [hshrink1] at hu2
    have h := List.mem_filter.mp hu2
    exact ⟨h.1, by simpa using h.2⟩
  set D2 : DB := { D1 with
    badges := D1.badges ++ [⟨D1.nextId, s, u2.id, .offered, r2.2 % 5 + 3, none, none, 0, 5⟩]
    invitations := D1.invitations ++
      [⟨D1.nextId + 1, D1.nextId, u2.id, now, now + invitationTimeoutHours, none⟩]
    nextId := D1.nextId + 2 } with hD2def
  have hE2nd : ((eligibleUsers D1 s cfg now).map (fun u => u.id)).Nodup := by
    rw [hshrink1]
    exact List.Nodup.sublist (List.Sublist.map _ (List.filter_sublist _)) hE1nd
  have hshrink2 : eligibleUsers D2 s cfg now =
      (eligibleUsers D1 s cfg now).filter (fun v => !decide (v.id = u2.id)) := by
    rw [hD2def]
    exact eligibleUsers_append_badge D1
      ⟨D1.nextId, s, u2.id, .offered, r2.2 % 5 + 3, none, none, 0, 5⟩
      ⟨D1.nextId + 1, D1.nextId, u2.id, now, now + invitationTimeoutHours, none⟩
      (D1.nextId + 2) u2.id rfl rfl s cfg now
  have hlen2 : (eligibleUsers D2 s cfg now).length =
      (eligibleUsers D1 s cfg now).length - 1 := by
    rw [hshrink2]
    exact filter_ne_length _ (fun u => u.id) u2 hu2 hE2nd
  rcases assignNewBadge_cases D2 s cfg now r3.1 r3.2 with ⟨hemp3, _⟩ | ⟨u3, hu3, _, heq3⟩
  · exfalso
    rw [hemp3] at hlen2
    simp only [List.length_nil] at hlen2
    omega
  have hu3m : (u3 ∈ eligibleUsers db s cfg now ∧ u3.id ≠ u1.id) ∧ u3.id ≠ u2.id := by
    rw [hshrink2] at hu3
    have h := List.mem_filter.mp hu3
    have h2 : u3.id ≠ u2.id := by simpa using h.2
    rw [hshrink1] at h
    have h3 := List.mem_filter.mp h.1
    exact ⟨⟨h3.1, by simpa using h3.2⟩, h2⟩
  have hnid1 : D1.nextId = db.nextId + 2 := by rw [hD1def]
  have hnid2 : D2.nextId = db.nextId + 4 := by rw [hD2def, hnid1]
  refine ⟨⟨db.nextId, s, u1.id, .offered, r1.2 % 5 + 3, none, none, 0, 5⟩,
    ⟨D1.nextId, s, u2.id, .offered, r2.2 % 5 + 3, none, none, 0, 5⟩,
    ⟨D2.nextId, s, u3.id, .offered, r3.2 % 5 + 3, none, none, 0, 5⟩,
    ⟨db.nextId + 1, db.nextId, u1.id, now, now + invitationTimeoutHours, none⟩,
    ⟨D1.nextId + 1, D1.nextId, u2.id, now, now + invitationTimeoutHours, none⟩,
    ⟨D2.nextId + 1, D2.nextId, u3.id, now, now + invitationTimeoutHours, none⟩,
    ?_, ?_, ⟨rfl, rfl, rfl⟩, ⟨rfl, rfl, rfl⟩, ?_, ?_, ⟨rfl, rfl, rfl⟩,
    ⟨rfl, rfl, rfl⟩, ⟨rfl, rfl, rfl⟩, ⟨rfl, rfl, rfl⟩⟩
  · rw [hloop, heq1, heq2, heq3]
    show D2.badges ++ _ = _
    rw [hD2def, hD1def]
    dsimp only
    simp [List.append_assoc]
  · rw [hloop, heq1, heq2, heq3]
    show D2.invitations ++ _ = _
    rw [hD2def, hD1def]
    dsimp only
    simp [List.append_assoc, hnid1, hnid2]
  · dsimp only
    omega
  · exact ⟨fun h => hu2m.2 h.symm, fun h => hu3m.1.2 h.symm, fun h => hu3m.2 h.symm⟩

/-- The pillar scope used by the scenario fixtures. -/
def fixPillarScope : Scope := { stype := .pillar, sid := 9 }

/-- A member of pillar 9, active at hour 1000, created at hour 0. -/
def mkPillarUser (k : Nat) (rep : Int) : User :=
  { id := k + 1, mode := true, reputation := rep, createdAt := 0, lastLogin := 900
    pillarId := some 9, wallet := some (k + 1) }

/-- 120 active members of pillar 9; only user 1 meets reputation 5. -/
def fixScenarioDB : DB :=
  { users := (List.range 120).map (fun k => mkPillarUser k (if k = 0 then 10 else 0))
    groups := [], groupMembers := [], pillars := [9]
    posts := [], comments := [], flags := []
    badges := [], invitations := [], history := []
    configs := [{ scope := fixPillarScope, membersPerBadge := 50
                  minReputation := 5, minAccountAgeDays := 7 }]
    modActions := [], transfers := [], nextId := 0 }

/-- Counterexample to C7 as stated.  The scope has 120 active members,
ratio 50 and zero existing badges, and its eligible candidate set is
non-empty (exactly one user passes the reputation minimum) — yet the
balance-check run creates exactly 1 offered badge, not 3: the second and
third deficit iterations find the eligible set empty and skip. -/
theorem c7_counterexample :
    activeMemberCount fixScenarioDB fixPillarScope 1000 = 120 ∧
    scopeBadgeCount fixScenarioDB fixPillarScope = 0 ∧
    (eligibleUsers fixScenarioDB fixPillarScope
      ((getOrCreateConfig fixScenarioDB fixPillarScope).1) 1000).length = 1 ∧
    (checkAndAssignBadges fixScenarioDB fixPillarScope 1000
      [(0, 0), (0, 0), (0, 0)]).badges.length = 1 := by
  decide

/-- 120 active members of pillar 9, all eligible (reputation 10 ≥ 0). -/
def fixScenario2DB : DB :=
  { users := (List.range 120).map (fun k => mkPillarUser k 10)
    groups := [], groupMembers := [], pillars := [9]
    posts := [], comments := [], flags := []
    badges := [], invitations := [], history := []
    configs := [{ scope := fixPillarScope, membersPerBadge := 50
                  minReputation := 0, minAccountAgeDays := 7 }]
    modActions := [], transfers := [], nextId := 0 }

/-- Witness for the corrected C7 at the all-eligible 120-member fixture. -/
theorem c7_amended_witness :
    ∃ (b1 b2 b3 : Badge) (i1 i2 i3 : Invitation),
      (checkAndAssignBadges fixScenario2DB fixPillarScope 1000
        [(0, 0), (1, 1), (2, 2)]).badges =
        fixScenario2DB.badges ++ [b1, b2, b3] ∧
      (checkAndAssignBadges fixScenario2DB fixPillarScope 1000
        [(0, 0), (1, 1), (2, 2)]).invitations =
        fixScenario2DB.invitations ++ [i1, i2, i3] ∧
      (b1.status = .offered ∧ b2.status = .offered ∧ b3.status = .offered) ∧
      (b1.scope = fixPillarScope ∧ b2.scope = fixPillarScope ∧
        b3.scope = fixPillarScope) ∧
      (b1.id ≠ b2.id ∧ b1.id ≠ b3.id ∧ b2.id ≠ b3.id) ∧
      (b1.holderId ≠ b2.holderId ∧ b1.holderId ≠ b3.holderId ∧
        b2.holderId ≠ b3.holderId) ∧
      (i1.badgeId = b1.id ∧ i2.badgeId = b2.id ∧ i3.badgeId = b3.id) ∧
      (i1.userId = b1.holderId ∧ i2.userId = b2.holderId ∧ i3.userId = b3.holderId) ∧
      (i1.expiresAt = 1000 + invitationTimeoutHours ∧
        i2.expiresAt = 1000 + invitationTimeoutHours ∧
        i3.expiresAt = 1000 + invitationTimeoutHours) ∧
      (i1.response = none ∧ i2.response = none ∧ i3.response = none) :=
  c7_amended fixScenario2DB fixPillarScope 1000 (0, 0) (1, 1) (2, 2)
    { scope := fixPillarScope, membersPerBadge := 50
      minReputation := 0, minAccountAgeDays := 7 }
    (by decide) rfl (by decide) (by decide) (by decide) (by decide)

/-! ### C3: scope capacity after sweeps -/

/-- One assignment adds at most one offered/active badge, and only to its
own scope. -/
theorem assignNewBadge_scopeCount (db : DB) (s : Scope) (cfg : ConfigRow)
    (now p1 p2 : Nat) (s2 : Scope) :
    scopeBadgeCount (assignNewBadge db s cfg now p1 p2) s2 ≤
      scopeBadgeCount db s2 + (if s = s2 then 1 else 0) := by
  rcases assignNewBadge_cases db s cfg now p1 p2 with ⟨_, heq⟩ | ⟨u, _, _, heq⟩
  · rw [heq]
    exact Nat.le_add_right _ _
  · rw [heq]
    unfold scopeBadgeCount
    dsimp only
    rw [List.filter_append, List.length_append]
    apply Nat.add_le_add (le_refl _)
    by_cases hs : s = s2
    · rw [if_pos hs]
      exact List.length_filter_le _ _
    · rw [if_neg hs]
      have : ([(⟨db.nextId, s, u.id, .offered, p2 % 5 + 3, none, none, 0, 5⟩ : Badge)].filter
          (fun b => decide (b.scope = s2) && isConc b.status)) = [] := by
        simp [List.filter, hs]
      rw [this]
      exact le_refl _

/-- The deficit loop adds at most `n` badges to its scope and none
elsewhere. -/
theorem assignLoop_scopeCount (s : Scope) (cfg : ConfigRow) (now : Nat) (n : Nat)
    (rs : List (Nat × Nat)) (db : DB) (s2 : Scope) :
    scopeBadgeCount (assignLoop s cfg now n rs db) s2 ≤
      scopeBadgeCount db s2 + (if s = s2 then n else 0) := by
  induction n generalizing rs db with
  | zero => simp [assignLoop]
  | succ m ih =>
      unfold assignLoop
      refine le_trans (ih rs.tail _) ?_
      have h1 := assignNewBadge_scopeCount db s cfg now (rs.headD (0, 0)).1
        (rs.headD (0, 0)).2 s2
      by_cases hs : s = s2
      · rw [if_pos hs] at h1 ⊢
        rw [if_pos hs]
        omega
      · rw [if_neg hs] at h1 ⊢
        rw [if_neg hs]
        omega

/-- One balance-check run on scope `s1` keeps every scope's offered/active
count at or below the larger of its previous count and the capacity bound
computed from the pre-state. -/
theorem checkAndAssign_scopeCount (db : DB) (s1 : Scope) (now : Nat)
    (rs : List (Nat × Nat)) (s2 : Scope) :
    scopeBadgeCount (checkAndAssignBadges db s1 now rs) s2 ≤
      max (scopeBadgeCount db s2)
        (ceilDiv (activeMemberCount db s2 now)
          ((getOrCreateConfig db s2).1.membersPerBadge)) := by
  unfold checkAndAssignBadges
  have hfr := getOrCreateConfig_frame db s1
  have hcount1 : scopeBadgeCount (getOrCreateConfig db s1).2 s2 = scopeBadgeCount db s2 := by
    unfold scopeBadgeCount
    rw [hfr.2.2.2.2.2.2.2.1]
  have hmem1 : activeMemberCount (getOrCreateConfig db s1).2 s2 now =
      activeMemberCount db s2 now := by
    unfold activeMemberCount
    have hu := hfr.1
    have hg := hfr.2.2.1
    have hp := hfr.2.2.2.2.1
    apply congrArg List.length
    rw [hu]
    apply List.filter_congr
    intro v _
    have hin : inScope (getOrCreateConfig db s1).2 v s2 = inScope db v s2 := by
      unfold inScope
      cases s2.stype
      · rw [hg]
      · rfl
    have hact : lastActiveOk (getOrCreateConfig db s1).2 v.id v.lastLogin now =
        lastActiveOk db v.id v.lastLogin now := by
      unfold lastActiveOk
      rw [hp]
    rw [hin, hact]
  refine le_trans (assignLoop_scopeCount s1 _ now _ rs _ s2) ?_
  by_cases hs : s1 = s2
  · rw [if_pos hs]
    subst hs
    rw [hcount1, hmem1]
    have hgoal : scopeBadgeCount db s1 +
        (ceilDiv (activeMemberCount db s1 now) ((getOrCreateConfig db s1).1.membersPerBadge) -
          scopeBadgeCount db s1) =
        max (scopeBadgeCount db s1)
          (ceilDiv (activeMemberCount db s1 now)
            ((getOrCreateConfig db s1).1.membersPerBadge)) := by
      omega
    rw [hgoal]
  · rw [if_neg hs]
    rw [hcount1]
    omega

/-- Stability of a scope's effective ratio across a balance-check run for
another (or the same) scope: `getOrCreateConfig` only ever appends the
default row of the scope it is asked about. -/
theorem getOrCreateConfig_fst_stable (db : DB) (s1 : Scope) (now : Nat)
    (rs : List (Nat × Nat)) (s : Scope) :
    (getOrCreateConfig (checkAndAssignBadges db s1 now rs) s).1 =
      (getOrCreateConfig db s).1 := by
  have hcfgs : (checkAndAssignBadges db s1 now rs).configs =
      (getOrCreateConfig db s1).2.configs := by
    unfold checkAndAssignBadges
    exact (assignLoop_frame s1 _ now _ rs _).2.2.2.2.2.2.2.2.1
  have hkey : ∀ db2 : DB, db2.configs = (getOrCreateConfig db s1).2.configs →
      (getOrCreateConfig db2 s).1 = (getOrCreateConfig db s).1 := by
    intro db2 h2
    cases hc1 : configFor db s1 with
    | some c =>
        have hsame : (getOrCreateConfig db s1).2.configs = db.configs := by
          unfold getOrCreateConfig
          rw [hc1]
        rw [hsame] at h2
        unfold getOrCreateConfig configFor
        rw [h2]
        cases db.configs.find? (fun c => decide (c.scope = s)) <;> rfl
    | none =>
        have hsame : (getOrCreateConfig db s1).2.configs =
            db.configs ++ [defaultConfigRow s1] := by
          unfold getOrCreateConfig
          rw [hc1]
        rw [hsame] at h2
        unfold getOrCreateConfig configFor
        rw [h2, List.find?_append]
        cases hcs : db.configs.find? (fun c => decide (c.scope = s)) with
        | some c2 => rfl
        | none =>
            by_cases hss : s1 = s
            · subst hss
              rw [show (List.find? (fun c => decide (c.scope = s1))
                  [defaultConfigRow s1]) = some (defaultConfigRow s1) from by
                simp [List.find?_cons, defaultConfigRow]]
              rfl
            · rw [show (List.find? (fun c => decide (c.scope = s))
                  [defaultConfigRow s1]) = none from by
                simp [List.find?_cons, defaultConfigRow, hss]]
              rfl
  exact hkey _ hcfgs

/-- Active-member counting depends only on users, group membership and
posts. -/
theorem activeMemberCount_congr (db2 db : DB) (hu : db2.users = db.users)
    (hg : db2.groupMembers = db.groupMembers) (hp : db2.posts = db.posts)
    (s : Scope) (now : Nat) :
    activeMemberCount db2 s now = activeMemberCount db s now := by
  unfold activeMemberCount
  rw [hu]
  apply congrArg List.length
  apply List.filter_congr
  intro v _
  have hin : inScope db2 v s = inScope db v s := by
    unfold inScope
    cases s.stype
    · rw [hg]
    · rfl
  have hact : lastActiveOk db2 v.id v.lastLogin now =
      lastActiveOk db v.id v.lastLogin now := by
    unfold lastActiveOk
    rw [hp]
  rw [hin, hact]

/-- The whole balance-check sweep keeps every scope's offered/active count
at or below the larger of its pre-sweep count and its capacity bound. -/
theorem balanceSweep_scopeCount (db : DB) (now : Nat) (scopeFail : Scope → Bool)
    (rands : Scope → List (Nat × Nat)) (s : Scope) :
    scopeBadgeCount (checkAllScopesBadgeBalance db now scopeFail rands) s ≤
      max (scopeBadgeCount db s)
        (ceilDiv (activeMemberCount db s now)
          ((getOrCreateConfig db s).1.membersPerBadge)) := by
  unfold checkAllScopesBadgeBalance
  have key : ∀ (l : List Scope) (acc : DB),
      scopeBadgeCount acc s ≤ max (scopeBadgeCount db s)
        (ceilDiv (activeMemberCount db s now)
          ((getOrCreateConfig db s).1.membersPerBadge)) →
      activeMemberCount acc s now = activeMemberCount db s now →
      (getOrCreateConfig acc s).1 = (getOrCreateConfig db s).1 →
      scopeBadgeCount (l.foldl (fun a s2 =>
        if scopeFail s2 then a else checkAndAssignBadges a s2 now (rands s2)) acc) s ≤
      max (scopeBadgeCount db s)
        (ceilDiv (activeMemberCount db s now)
          ((getOrCreateConfig db s).1.membersPerBadge)) := by
    intro l
    induction l with
    | nil => intro acc h1 _ _; exact h1
    | cons s2 t ih =>
        intro acc h1 h2 h3
        rw [List.foldl_cons]
        by_cases hf : scopeFail s2 = true
        · rw [if_pos hf]
          exact ih acc h1 h2 h3
        · rw [if_neg hf]
          have hfr := checkAndAssign_frame acc s2 now (rands s2)
          have hstep := checkAndAssign_scopeCount acc s2 now (rands s2) s
          rw [h2, h3] at hstep
          refine ih _ (le_trans hstep (max_le (le_trans h1 (le_refl _))
            (le_max_right _ _))) ?_ ?_
          · exact (activeMemberCount_congr _ acc hfr.1 hfr.2.2.1 hfr.2.2.2.2.1 s now).trans h2
          · exact (getOrCreateConfig_fst_stable acc s2 now (rands s2) s).trans h3
  exact key (sweepScopes db) db (le_max_left _ _) rfl rfl

/-- One settlement step never increases any scope's offered/active count. -/
theorem settleStep_scopeCount (orig : DB) (now : Nat) (L : Nat → Bool)
    (acc : DB) (b : Badge) (s : Scope) :
    scopeBadgeCount (settleStep orig now L acc b) s ≤ scopeBadgeCount acc s := by
  have hmap : (acc.badges.map (fun x => if x.id = b.id then
      { x with status := BadgeStatus.expired } else x)).countP
        (fun x => decide (x.scope = s) && isConc x.status) ≤
      acc.badges.countP (fun x => decide (x.scope = s) && isConc x.status) := by
    apply countP_guard_le
    intro a hpa
    simp only [Bool.and_eq_true] at hpa
    exact absurd hpa.2 (by simp [isConc])
  unfold settleStep
  by_cases hq : b.actionsTaken ≥ b.minActionsRequired
  · rw [if_pos hq]
    unfold scopeBadgeCount
    rw [(settleCompleted_proj orig acc b now).1]
    rw [← List.countP_eq_length_filter, ← List.countP_eq_length_filter]
    exact hmap
  · rw [if_neg hq]
    by_cases hL : L b.id = true
    · rw [if_pos hL]
      unfold scopeBadgeCount
      rw [(settleAbandoned_proj orig acc b now).1]
      rw [← List.countP_eq_length_filter, ← List.countP_eq_length_filter]
      exact hmap
    · rw [if_neg hL]

/-- The settlement sweep never increases any scope's offered/active count. -/
theorem settleSweep_scopeCount (db : DB) (now : Nat) (L : Nat → Bool) (s : Scope) :
    scopeBadgeCount (processExpiredBadges db now L) s ≤ scopeBadgeCount db s := by
  unfold processExpiredBadges
  have key : ∀ (l : List Badge) (acc : DB),
      scopeBadgeCount (l.foldl (settleStep db now L) acc) s ≤ scopeBadgeCount acc s := by
    intro l
    induction l with
    | nil => intro acc; exact le_refl _
    | cons b t ih =>
        intro acc
        rw [List.foldl_cons]
        exact le_trans (ih _) (settleStep_scopeCount db now L acc b s)
  exact key _ db

/-- Declining the unique badge with id `k` removes exactly its contribution
from any `countP` that the declined copy fails. -/
theorem badges_decline_countP (l : List Badge) (k : Nat) (p : Badge → Bool)
    (b0 : Badge) :
    (l.map (fun b => b.id)).Nodup → b0 ∈ l → b0.id = k →
    p { b0 with status := BadgeStatus.declined } = false →
    (l.map (fun b => if b.id = k then { b with status := BadgeStatus.declined }
      else b)).countP p + (if p b0 then 1 else 0) = l.countP p := by
  induction l with
  | nil => intro _ hb0 _ _; cases hb0
  | cons a t ih =>
      intro hn hb0 hk hp0
      rw [List.map_cons, List.nodup_cons] at hn
      rw [List.map_cons, List.countP_cons, List.countP_cons]
      rcases List.mem_cons.mp hb0 with h0 | h0
      · subst h0
        have hrest : t.map (fun b => if b.id = k then
            { b with status := BadgeStatus.declined } else b) = t := by
          have hcongr : t.map (fun b => if b.id = k then
              { b with status := BadgeStatus.declined } else b) = t.map id := by
            apply List.map_congr_left
            intro x hx
            have hxk : ¬ (x.id = k) := by
              intro he
              exact hn.1 (by rw [hk, ← he]; exact List.mem_map_of_mem _ hx)
            rw [if_neg hxk]
            rfl
          rw [hcongr, List.map_id]
        rw [if_pos hk, hrest]
        cases hpa : p b0
        · simp [hp0, hpa]
        · simp [hp0, hpa]
      · have hka : ¬ (a.id = k) := by
          intro he
          exact hn.1 (by rw [he, ← hk]; exact List.mem_map_of_mem _ h0)
        rw [if_neg hka]
        have hrec := ih hn.2 h0 hk hp0
        cases hpa : p a <;> cases hpb : p b0 <;>
          simp only [hpa, hpb] at hrec ⊢ <;> simp at hrec ⊢ <;> omega

/-- Every item produced by the expired-invitation query carries a badge row
that is in the table, matches the invitation's `badge_id` and is still
`offered`. -/
theorem expiredInvitations_spec (db : DB) (now : Nat) :
    ∀ it ∈ expiredInvitations db now,
      it.2 ∈ db.badges ∧ it.2.id = it.1.badgeId ∧
        it.2.status = BadgeStatus.offered := by
  intro it hit
  unfold expiredInvitations at hit
  rw [List.mem_filterMap] at hit
  obtain ⟨i, hi, hf⟩ := hit
  cases hfind : db.badges.find? (fun b =>
      decide (b.id = i.badgeId ∧ b.status = BadgeStatus.offered)) with
  | none => rw [hfind] at hf; cases hf
  | some b =>
      rw [hfind] at hf
      have hib : (i, b) = it := by
        injection hf
      have hmem := List.mem_of_find?_eq_some hfind
      have hb2 : b.id = i.badgeId ∧ b.status = BadgeStatus.offered := by
        have hpb := List.find?_some hfind
        simpa using hpb
      rw [← hib]
      exact ⟨hmem, hb2.1, hb2.2⟩

/-- Specialisation of the kill lemma to the scope-capacity predicate: the
declined badge was `offered`, so its contribution is `1` exactly on its own
scope. -/
theorem badges_decline_scopeCountP (l : List Badge) (k : Nat) (s : Scope)
    (b0 : Badge) (hn : (l.map (fun b => b.id)).Nodup) (hb0 : b0 ∈ l)
    (hk : b0.id = k) (hoff : b0.status = BadgeStatus.offered) :
    (l.map (fun b => if b.id = k then { b with status := BadgeStatus.declined }
        else b)).countP (fun b => decide (b.scope = s) && isConc b.status) +
      (if b0.scope = s then 1 else 0) =
      l.countP (fun b => decide (b.scope = s) && isConc b.status) := by
  have h := badges_decline_countP l k
    (fun b => decide (b.scope = s) && isConc b.status) b0 hn hb0 hk
    (by simp [isConc])
  have hδ : ((if (decide (b0.scope = s) && isConc b0.status) = true
      then 1 else 0) : Nat) = (if b0.scope = s then 1 else 0) := by
    by_cases hss : b0.scope = s <;> simp [hss, hoff, isConc]
  dsimp only at h
  rw [hδ] at h
  exact h

/-- A guarded row update by an id-preserving transformer keeps the id
column unchanged. -/
theorem badges_map_guard_ids (l : List Badge) (k : Nat) (f : Badge → Badge)
    (hid : ∀ b, (f b).id = b.id) :
    (l.map (fun b => if b.id = k then f b else b)).map (fun b => b.id) =
      l.map (fun b => b.id) := by
  rw [List.map_map]
  apply List.map_congr_left
  intro x _
  show (if x.id = k then f x else x).id = x.id
  by_cases h : x.id = k
  · rw [if_pos h]
    exact hid x
  · rw [if_neg h]

/-- A backfill either leaves the badge table and the counter unchanged
(empty eligible set) or appends one offered badge with the next fresh id. -/
theorem timeoutBackfill_cases (keep : DB) (it : Invitation × Badge) (now : Nat)
    (r : Nat × Nat) :
    ((timeoutBackfill keep it now r).badges = keep.badges ∧
      (timeoutBackfill keep it now r).nextId = keep.nextId) ∨
    (∃ uid2, (timeoutBackfill keep it now r).badges =
        keep.badges ++ [⟨keep.nextId, it.2.scope, uid2, BadgeStatus.offered,
          r.2 % 5 + 3, none, none, 0, 5⟩] ∧
      (timeoutBackfill keep it now r).nextId = keep.nextId + 2) := by
  unfold timeoutBackfill
  dsimp only
  have hfr := getOrCreateConfig_frame keep it.2.scope
  rcases assignNewBadge_cases (getOrCreateConfig keep it.2.scope).2 it.2.scope
      (getOrCreateConfig keep it.2.scope).1 now r.1 r.2 with ⟨_, heq⟩ | ⟨u, _, _, heq⟩
  · left
    rw [heq]
    exact ⟨hfr.2.2.2.2.2.2.2.1, hfr.2.2.2.2.2.2.2.2.2.2.2.2⟩
  · right
    refine ⟨u.id, ?_, ?_⟩
    · rw [heq]
      dsimp only
      rw [hfr.2.2.2.2.2.2.2.1, hfr.2.2.2.2.2.2.2.2.2.2.2.2]
    · rw [heq]
      dsimp only
      rw [hfr.2.2.2.2.2.2.2.2.2.2.2.2]

/-- Applying the pending retirements at COMMIT removes exactly one
offered/active badge per item of the given scope. -/
theorem retireFold_scopeCount (s : Scope) :
    ∀ (done : List (Invitation × Badge)) (cur : DB),
    (cur.badges.map (fun b => b.id)).Nodup →
    (∀ it ∈ done, it.2 ∈ cur.badges ∧ it.2.id = it.1.badgeId ∧
      it.2.status = BadgeStatus.offered) →
    ((done.map (fun it => it.1.badgeId)).Nodup) →
    scopeBadgeCount (done.foldl timeoutRetire cur) s +
      done.countP (fun it => decide (it.2.scope = s)) = scopeBadgeCount cur s := by
  intro done
  induction done with
  | nil =>
      intro cur h1 h2 h3
      simp
  | cons it rest ih =>
      intro cur h1 h2 h3
      obtain ⟨hm, hid, hoff⟩ := h2 it (List.mem_cons_self it rest)
      have hkill : scopeBadgeCount (timeoutRetire cur it) s +
          (if it.2.scope = s then 1 else 0) = scopeBadgeCount cur s := by
        have h := badges_decline_scopeCountP cur.badges it.1.badgeId s it.2
          h1 hm hid hoff
        unfold scopeBadgeCount
        rw [← List.countP_eq_length_filter, ← List.countP_eq_length_filter]
        exact h
      rw [List.map_cons, List.nodup_cons] at h3
      have h1' : ((timeoutRetire cur it).badges.map (fun b => b.id)).Nodup := by
        show ((cur.badges.map (fun b => if b.id = it.1.badgeId then
          { b with status := BadgeStatus.declined } else b)).map
          (fun b => b.id)).Nodup
        rw [badges_map_guard_ids cur.badges it.1.badgeId
          (fun b => { b with status := BadgeStatus.declined }) (fun _ => rfl)]
        exact h1
      have h2' : ∀ it2 ∈ rest, it2.2 ∈ (timeoutRetire cur it).badges ∧
          it2.2.id = it2.1.badgeId ∧ it2.2.status = BadgeStatus.offered := by
        intro it2 hit2
        obtain ⟨hm2, hid2, hoff2⟩ := h2 it2 (List.mem_cons_of_mem it hit2)
        refine ⟨?_, hid2, hoff2⟩
        have hne : ¬ (it2.2.id = it.1.badgeId) := by
          intro he
          have hbb : it2.1.badgeId = it.1.badgeId := by rw [← hid2, he]
          exact h3.1 (hbb ▸ List.mem_map_of_mem _ hit2)
        exact List.mem_map.mpr ⟨it2.2, hm2, by dsimp only; rw [if_neg hne]⟩
      have hrec := ih (timeoutRetire cur it) h1' h2' h3.2
      rw [List.foldl_cons]
      simp only [List.countP_cons]
      by_cases hss : it.2.scope = s
      · rw [if_pos hss] at hkill
        simp [hss]
        omega
      · rw [if_neg hss] at hkill
        simp [hss]
        omega

/-- The timeout loop, starting from a committed state bounded by the
pre-sweep state plus the pending items' scopes, ends any error-free run at
or below the pre-sweep count: each retired item pays for its at-most-one
backfill. -/
theorem timeoutLoop_ok_scopeCount (now : Nat) (itemFail : Nat → Bool)
    (s : Scope) (db : DB) :
    ∀ (items : List (Invitation × Badge)) (rs : List (Nat × Nat)) (keep : DB)
      (done : List (Invitation × Badge)),
    (keep.badges.map (fun b => b.id)).Nodup →
    (∀ b ∈ keep.badges, b.id < keep.nextId) →
    (∀ it ∈ done ++ items, it.2 ∈ keep.badges ∧ it.2.id = it.1.badgeId ∧
      it.2.status = BadgeStatus.offered) →
    (((done ++ items).map (fun it => it.1.badgeId)).Nodup) →
    scopeBadgeCount keep s ≤ scopeBadgeCount db s +
      done.countP (fun it => decide (it.2.scope = s)) →
    (timeoutLoop now itemFail items rs keep done).1 = none →
    scopeBadgeCount (timeoutLoop now itemFail items rs keep done).2 s ≤
      scopeBadgeCount db s := by
  intro items
  induction items with
  | nil =>
      intro rs keep done h1 h2 h3 h4 h5 hok
      simp only [timeoutLoop]
      have h3' : ∀ it ∈ done, it.2 ∈ keep.badges ∧ it.2.id = it.1.badgeId ∧
          it.2.status = BadgeStatus.offered := by
        intro it hit
        exact h3 it (by simpa using hit)
      have h4' : ((done.map (fun it => it.1.badgeId)).Nodup) := by
        simpa using h4
      have hfold := retireFold_scopeCount s done keep h1 h3' h4'
      omega
  | cons it rest ih =>
      intro rs keep done h1 h2 h3 h4 h5 hok
      simp only [timeoutLoop] at hok ⊢
      by_cases hf : itemFail it.1.id = true
      · rw [if_pos hf] at hok
        simp at hok
      · rw [if_neg hf] at hok ⊢
        have hscope : scopeBadgeCount (timeoutBackfill keep it now (rs.headD (0, 0))) s ≤
            scopeBadgeCount keep s + (if it.2.scope = s then 1 else 0) ∧
            ((timeoutBackfill keep it now (rs.headD (0, 0))).badges.map
              (fun b => b.id)).Nodup ∧
            (∀ b ∈ (timeoutBackfill keep it now (rs.headD (0, 0))).badges,
              b.id < (timeoutBackfill keep it now (rs.headD (0, 0))).nextId) ∧
            (∀ b2 ∈ keep.badges,
              b2 ∈ (timeoutBackfill keep it now (rs.headD (0, 0))).badges) := by
          rcases timeoutBackfill_cases keep it now (rs.headD (0, 0)) with
            ⟨hb, hnx⟩ | ⟨u2, hb, hnx⟩
          · refine ⟨?_, ?_, ?_, ?_⟩
            · unfold scopeBadgeCount
              rw [hb]
              exact Nat.le_add_right _ _
            · rw [hb]
              exact h1
            · intro b hbm
              rw [hb] at hbm
              rw [hnx]
              exact h2 b hbm
            · intro b2 hb2
              rw [hb]
              exact hb2
          · refine ⟨?_, ?_, ?_, ?_⟩
            · unfold scopeBadgeCount
              rw [hb, List.filter_append, List.length_append]
              apply Nat.add_le_add (le_refl _)
              by_cases hss : it.2.scope = s
              · rw [if_pos hss]
                exact List.length_filter_le _ _
              · rw [if_neg hss]
                have hz : (List.filter (fun b => decide (b.scope = s) && isConc b.status)
                    [(⟨keep.nextId, it.2.scope, u2, BadgeStatus.offered,
                      (rs.headD (0, 0)).2 % 5 + 3, none, none, 0, 5⟩ : Badge)]).length
                    = 0 := by
                  simp [hss, isConc]
                rw [hz]
            · rw [hb, List.map_append]
              rw [show ([(⟨keep.nextId, it.2.scope, u2, BadgeStatus.offered,
                (rs.headD (0, 0)).2 % 5 + 3, none, none, 0, 5⟩ : Badge)].map
                (fun b => b.id)) = [keep.nextId] from rfl]
              rw [List.nodup_append]
              refine ⟨h1, List.nodup_singleton _, ?_⟩
              intro a ha ha2
              rw [List.mem_singleton] at ha2
              obtain ⟨b1, hb1, hbe⟩ := List.mem_map.mp ha
              rw [← hbe] at ha2
              have ha3 : b1.id = keep.nextId := ha2
              have := h2 b1 hb1
              omega
            · intro b hbm
              rw [hb] at hbm
              rw [hnx]
              rcases List.mem_append.mp hbm with hx | hx
              · have := h2 b hx
                omega
              · rw [List.mem_singleton] at hx
                rw [hx]
                show keep.nextId < keep.nextId + 2
                omega
            · intro b2 hb2
              rw [hb]
              exact List.mem_append_left _ hb2
        refine ih rs.tail _ (done ++ [it]) hscope.2.1 hscope.2.2.1 ?_ ?_ ?_ hok
        · intro it2 hit2
          have hit2' : it2 ∈ done ++ it :: rest := by
            rcases List.mem_append.mp hit2 with hx | hx
            · rcases List.mem_append.mp hx with hy | hy
              · exact List.mem_append_left _ hy
              · rw [List.mem_singleton] at hy
                rw [hy]
                exact List.mem_append_right _ (List.mem_cons_self it rest)
            · exact List.mem_append_right _ (List.mem_cons_of_mem it hx)
          obtain ⟨hm2, hid2, hoff2⟩ := h3 it2 hit2'
          exact ⟨hscope.2.2.2 it2.2 hm2, hid2, hoff2⟩
        · have : (done ++ [it]) ++ rest = done ++ it :: rest := by
            rw [List.append_assoc]
            rfl
          rw [this]
          exact h4
        · refine le_trans hscope.1 ?_
          rw [List.countP_append]
          have hone : ([it].countP (fun it2 => decide (it2.2.scope = s))) =
              (if it.2.scope = s then 1 else 0) := by
            by_cases hss : it.2.scope = s <;> simp [hss]
          rw [hone]
          by_cases hss : it.2.scope = s
          · rw [if_pos hss]
            omega
          · rw [if_neg hss]
            omega

/-- The whole timeout sweep, when it completes without error, never
increases any scope's offered/active badge count, given well-formed badge
ids and pairwise-distinct expired items. -/
theorem timeoutSweep_ok_scopeCount (db : DB) (now : Nat) (itemFail : Nat → Bool)
    (rands : List (Nat × Nat)) (s : Scope)
    (hn : (db.badges.map (fun b => b.id)).Nodup)
    (hfresh : ∀ b ∈ db.badges, b.id < db.nextId)
    (hitems : ((expiredInvitations db now).map (fun it => it.1.badgeId)).Nodup)
    (hok : (processInvitationTimeouts db now itemFail rands).1 = none) :
    scopeBadgeCount (processInvitationTimeouts db now itemFail rands).2 s ≤
      scopeBadgeCount db s := by
  unfold processInvitationTimeouts at hok ⊢
  refine timeoutLoop_ok_scopeCount now itemFail s db (expiredInvitations db now)
    rands db [] hn hfresh ?_ ?_ ?_ hok
  · intro it hit
    exact expiredInvitations_spec db now it (by simpa using hit)
  · simpa using hitems
  · simp

/-- Concrete fixture: badge 0 active for user 1 with actions already taken,
user present, fresh ids. -/
def fixPassDB : DB :=
  { users := [fixUser1]
    groups := [{ id := 7, isActive := true }]
    groupMembers := [(7, 1)]
    pillars := [], posts := [], comments := [], flags := []
    badges := [{ id := 0, scope := fixScope, holderId := 1, status := .active
                 dutyDays := 3, startDate := some 1000, endDate := some 1072 }]
    invitations := []
    history := [], configs := [], modActions := [], transfers := []
    nextId := 2 }

/-- Witness for C10 at the concrete fixture. -/
theorem c10_pass_settled_once_witness :
    (passBadge fixPassDB 1 0 99 1030 []).1 = none ∧
    (∀ x ∈ (passBadge fixPassDB 1 0 99 1030 []).2.badges, x.id = 0 →
      x.status = .abandoned) ∧
    (passBadge fixPassDB 1 0 99 1030 []).2.history.filter
        (fun h => decide (h.badgeId = 0)) =
      fixPassDB.history.filter (fun h => decide (h.badgeId = 0)) ++
        [⟨1, 0, fixScope, .abandoned, 1030⟩] ∧
    userRep (passBadge fixPassDB 1 0 99 1030 []).2 1 = userRep fixPassDB 1 - 3 ∧
    (∀ now2 L2,
      (∀ x ∈ (processExpiredBadges (passBadge fixPassDB 1 0 99 1030 []).2 now2 L2).badges,
        x.id = 0 → x.status = .abandoned) ∧
      (processExpiredBadges (passBadge fixPassDB 1 0 99 1030 []).2 now2 L2).history.filter
          (fun h => decide (h.badgeId = 0)) =
        (passBadge fixPassDB 1 0 99 1030 []).2.history.filter
          (fun h => decide (h.badgeId = 0)) ∧
      (processExpiredBadges (passBadge fixPassDB 1 0 99 1030 []).2 now2 L2).transfers.countP
          (fun t => decide (t = 0)) =
        (passBadge fixPassDB 1 0 99 1030 []).2.transfers.countP
          (fun t => decide (t = 0))) :=
  c10_pass_settled_once fixPassDB 1 0 99 1030 []
    { id := 0, scope := fixScope, holderId := 1, status := .active, dutyDays := 3
      startDate := some 1000, endDate := some 1072 }
    (by decide) (by decide) (by decide)

/-- Two active members of pillar 9 with a ratio-1 config: a balance sweep
fills the scope up to its quota of 2. -/
def envC3 : Env :=
  { users := [mkPillarUser 0 10, mkPillarUser 1 10]
    groups := [], groupMembers := [], pillars := [9]
    posts := [], comments := [], flags := []
    configs := [{ scope := fixPillarScope, membersPerBadge := 1
                  minReputation := 0, minAccountAgeDays := 7 }] }

/-- The state after a balance sweep at hour 1000 over `envC3`: both members
hold offered badges. -/
def c3MidDB : DB :=
  checkAllScopesBadgeBalance (initDB envC3) 1000 (fun _ => false)
    (fun _ => [(0, 0), (1, 1)])

/-- The state after a second balance sweep at hour 10000, when both members
have long been inactive: the sweep completes without touching the badges. -/
def c3FinalDB : DB :=
  checkAllScopesBadgeBalance c3MidDB 10000 (fun _ => false) (fun _ => [])

/-- Counterexample to C3 as stated.  `c3FinalDB` is reached by two balance
sweeps; immediately after the second one completes, pillar 9 still carries
2 offered badges while `ceil(activeMembers/ratio)` at the sweep instant is
0 (both members have been inactive for over 30 days): sweeps only top a
scope up, they never shrink an over-quota scope back under the bound. -/
theorem c3_counterexample :
    Reach c3FinalDB ∧
    scopeBadgeCount c3FinalDB fixPillarScope = 2 ∧
    ceilDiv (activeMemberCount c3FinalDB fixPillarScope 10000)
      ((getOrCreateConfig c3FinalDB fixPillarScope).1.membersPerBadge) = 0 := by
  refine ⟨?_, by decide, by decide⟩
  exact Reach.balance 10000 (fun _ => false) (fun _ => [])
    (Reach.balance 1000 (fun _ => false) (fun _ => [(0, 0), (1, 1)])
      (Reach.init envC3))

/-- The two-badge timeout fixture plus a third, badge-free eligible member
(user 6): the first item's backfill has someone to offer to. -/
def c3AbortDB : DB :=
  { users := [{ id := 1, mode := true, reputation := 10, createdAt := 0
                lastLogin := 1500, wallet := some 41 },
              { id := 2, mode := true, reputation := 10, createdAt := 0
                lastLogin := 1500, wallet := some 42 },
              { id := 6, mode := true, reputation := 10, createdAt := 0
                lastLogin := 1500, wallet := some 43 }]
    groups := [{ id := 7, isActive := true }]
    groupMembers := [(7, 1), (7, 2), (7, 6)]
    pillars := [], posts := [], comments := [], flags := []
    badges := [{ id := 0, scope := fixScope, holderId := 1, status := .offered
                 dutyDays := 3 },
               { id := 2, scope := fixScope, holderId := 2, status := .offered
                 dutyDays := 3 }]
    invitations := [{ id := 1, badgeId := 0, userId := 1, invitedAt := 1000
                      expiresAt := 1012 },
                    { id := 3, badgeId := 2, userId := 2, invitedAt := 1000
                      expiresAt := 1012 }]
    history := [], configs := [], modActions := [], transfers := []
    nextId := 4 }

/-- C3, corrected: the balance sweep keeps every scope's offered/active
badge count at most the larger of its pre-sweep count and
`ceil(activeMembers/ratio)` at the sweep instant; the settlement sweep never
increases the count; and the invitation-timeout sweep never increases the
count *when it completes without error* (under well-formed badge ids and
pairwise-distinct expired items).  The error-free proviso is necessary: the
per-item backfills commit on their own connections, so an aborted sweep
rolls back its retirements while keeping the committed backfills and can
end above the pre-sweep count (last conjunct: a concrete aborted run goes
from 2 to 3 offered badges).  The unconditional post-sweep bound
`count ≤ ceil(activeMembers/ratio)` does not hold. -/
theorem c3_amended :
    (∀ (db : DB) (now : Nat) (scopeFail : Scope → Bool)
        (rands : Scope → List (Nat × Nat)) (s : Scope),
      scopeBadgeCount (checkAllScopesBadgeBalance db now scopeFail rands) s ≤
        max (scopeBadgeCount db s)
          (ceilDiv (activeMemberCount db s now)
            ((getOrCreateConfig db s).1.membersPerBadge))) ∧
    (∀ (db : DB) (now : Nat) (itemFail : Nat → Bool)
        (rands : List (Nat × Nat)) (s : Scope),
      (db.badges.map (fun b => b.id)).Nodup →
      (∀ b ∈ db.badges, b.id < db.nextId) →
      ((expiredInvitations db now).map (fun it => it.1.badgeId)).Nodup →
      (processInvitationTimeouts db now itemFail rands).1 = none →
      scopeBadgeCount (processInvitationTimeouts db now itemFail rands).2 s ≤
        scopeBadgeCount db s) ∧
    (∀ (db : DB) (now : Nat) (L : Nat → Bool) (s : Scope),
      scopeBadgeCount (processExpiredBadges db now L) s ≤ scopeBadgeCount db s) ∧
    ((processInvitationTimeouts c3AbortDB 2000 (fun i => decide (i = 3))
        [(0, 0), (0, 0)]).1 = some .itemFailure ∧
      scopeBadgeCount (processInvitationTimeouts c3AbortDB 2000
        (fun i => decide (i = 3)) [(0, 0), (0, 0)]).2 fixScope = 3 ∧
      scopeBadgeCount c3AbortDB fixScope = 2) :=
  ⟨balanceSweep_scopeCount, timeoutSweep_ok_scopeCount, settleSweep_scopeCount,
    by decide⟩

/-- Witness for the corrected C3: the timeout-sweep hypotheses hold at the
two-expired-invitation fixture, the sweep there completes without error,
and it does not raise the scope's count. -/
theorem c3_amended_witness :
    ((fixTimeoutDB.badges.map (fun b => b.id)).Nodup ∧
      (∀ b ∈ fixTimeoutDB.badges, b.id < fixTimeoutDB.nextId) ∧
      ((expiredInvitations fixTimeoutDB 2000).map
        (fun it => it.1.badgeId)).Nodup ∧
      (processInvitationTimeouts fixTimeoutDB 2000 (fun _ => false)
        [(0, 0), (0, 0)]).1 = none) ∧
    scopeBadgeCount (processInvitationTimeouts fixTimeoutDB 2000
      (fun _ => false) [(0, 0), (0, 0)]).2 fixScope ≤
      scopeBadgeCount fixTimeoutDB fixScope :=
  ⟨⟨by decide, by decide, by decide, by decide⟩,
    c3_amended.2.1 fixTimeoutDB 2000 (fun _ => false) [(0, 0), (0, 0)] fixScope
      (by decide) (by decide) (by decide) (by decide)⟩

/-! ### C2: no user ever holds two offered/active badges -/

/-- How many offered/active badges a user currently holds (the reading
behind the `NOT EXISTS` concurrency clause of candidate selection). -/
def concCount (db : DB) (uid : Nat) : Nat :=
  db.badges.countP (fun b => decide (b.holderId = uid) && isConc b.status)

/-- Wellformedness carried through every engine step: badge ids are
pairwise distinct and below the id counter, and no user holds two
offered/active badges. -/
def WFc (db : DB) : Prop :=
  ((db.badges.map (fun b => b.id)).Nodup) ∧
  (∀ b ∈ db.badges, b.id < db.nextId) ∧
  (∀ uid, concCount db uid ≤ 1)

/-- Wellformedness only reads `badges` and `nextId`, and tolerates a larger
counter. -/
theorem WFc_congr (db2 db : DB) (hb : db2.badges = db.badges)
    (hn : db.nextId ≤ db2.nextId) (h : WFc db) : WFc db2 := by
  obtain ⟨h1, h2, h3⟩ := h
  refine ⟨by rw [hb]; exact h1, ?_, ?_⟩
  · intro b hbm
    rw [hb] at hbm
    exact lt_of_lt_of_le (h2 b hbm) hn
  · intro uid
    unfold concCount
    rw [hb]
    exact h3 uid

/-- Updating the unique badge with id `k` leaves any `countP` unchanged
when the transformed row keeps its predicate value. -/
theorem badges_update_countP_eq (l : List Badge) (k : Nat) (f : Badge → Badge)
    (p : Badge → Bool) (b0 : Badge) :
    (l.map (fun b => b.id)).Nodup → b0 ∈ l → b0.id = k → p (f b0) = p b0 →
    (l.map (fun b => if b.id = k then f b else b)).countP p = l.countP p := by
  induction l with
  | nil => intro _ hb0 _ _; cases hb0
  | cons a t ih =>
      intro hn hb0 hk hp0
      rw [List.map_cons, List.nodup_cons] at hn
      rw [List.map_cons, List.countP_cons, List.countP_cons]
      rcases List.mem_cons.mp hb0 with h0 | h0
      · subst h0
        have hrest : t.map (fun b => if b.id = k then f b else b) = t := by
          have hcongr : t.map (fun b => if b.id = k then f b else b) =
              t.map id := by
            apply List.map_congr_left
            intro x hx
            have hxk : ¬ (x.id = k) := by
              intro he
              exact hn.1 (by rw [hk, ← he]; exact List.mem_map_of_mem _ hx)
            rw [if_neg hxk]
            rfl
          rw [hcongr, List.map_id]
        rw [if_pos hk, hrest, hp0]
      · have hka : ¬ (a.id = k) := by
          intro he
          exact hn.1 (by rw [he, ← hk]; exact List.mem_map_of_mem _ h0)
        rw [if_neg hka]
        rw [ih hn.2 h0 hk hp0]

/-- A guarded badge update that never turns the concurrency predicate on
(decline, abandon, expire, pure counters) preserves wellformedness. -/
theorem WFc_updateBadge_le (db : DB) (k : Nat) (f : Badge → Badge)
    (hid : ∀ b, (f b).id = b.id)
    (hp : ∀ uid b, ((decide ((f b).holderId = uid) && isConc (f b).status) = true) →
      ((decide (b.holderId = uid) && isConc b.status) = true))
    (h : WFc db) : WFc (updateBadge db k f) := by
  obtain ⟨h1, h2, h3⟩ := h
  refine ⟨?_, ?_, ?_⟩
  · show ((db.badges.map (fun b => if b.id = k then f b else b)).map
      (fun b => b.id)).Nodup
    rw [badges_map_guard_ids db.badges k f hid]
    exact h1
  · intro b hb
    have hb' : b ∈ db.badges.map (fun b => if b.id = k then f b else b) := hb
    obtain ⟨b1, hb1, hgb⟩ := List.mem_map.mp hb'
    show b.id < db.nextId
    have hbi : b.id = b1.id := by
      rw [← hgb]
      by_cases hc : b1.id = k
      · rw [if_pos hc]
        exact hid b1
      · rw [if_neg hc]
    rw [hbi]
    exact h2 b1 hb1
  · intro uid
    show (db.badges.map (fun b => if b.id = k then f b else b)).countP
      (fun b => decide (b.holderId = uid) && isConc b.status) ≤ 1
    refine le_trans (countP_guard_le db.badges (fun b => b.id = k) f _ ?_) (h3 uid)
    intro a ha
    exact hp uid a ha

/-- A guarded update of the unique badge with id `k` that keeps that row's
concurrency predicate value (offered → active) preserves wellformedness. -/
theorem WFc_updateBadge_eq_unique (db : DB) (k : Nat) (f : Badge → Badge)
    (hid : ∀ b, (f b).id = b.id)
    (b0 : Badge) (hb0 : b0 ∈ db.badges) (hk : b0.id = k)
    (hp : ∀ uid, (decide ((f b0).holderId = uid) && isConc (f b0).status) =
      (decide (b0.holderId = uid) && isConc b0.status))
    (h : WFc db) : WFc (updateBadge db k f) := by
  obtain ⟨h1, h2, h3⟩ := h
  refine ⟨?_, ?_, ?_⟩
  · show ((db.badges.map (fun b => if b.id = k then f b else b)).map
      (fun b => b.id)).Nodup
    rw [badges_map_guard_ids db.badges k f hid]
    exact h1
  · intro b hb
    have hb' : b ∈ db.badges.map (fun b => if b.id = k then f b else b) := hb
    obtain ⟨b1, hb1, hgb⟩ := List.mem_map.mp hb'
    show b.id < db.nextId
    have hbi : b.id = b1.id := by
      rw [← hgb]
      by_cases hc : b1.id = k
      · rw [if_pos hc]
        exact hid b1
      · rw [if_neg hc]
    rw [hbi]
    exact h2 b1 hb1
  · intro uid
    show (db.badges.map (fun b => if b.id = k then f b else b)).countP
      (fun b => decide (b.holderId = uid) && isConc b.status) ≤ 1
    rw [badges_update_countP_eq db.badges k f _ b0 h1 hb0 hk (hp uid)]
    exact h3 uid

/-- Initial states have no badges at all. -/
theorem initDB_WFc (e : Env) : WFc (initDB e) := by
  refine ⟨List.nodup_nil, ?_, ?_⟩
  · intro b hb
    cases hb
  · intro uid
    exact Nat.zero_le 1

/-- Environment steps leave the engine's badge table untouched. -/
theorem setEnv_WFc (db : DB) (e : Env) (h : WFc db) : WFc (setEnv db e) :=
  WFc_congr _ db rfl (le_refl _) h

/-- Config creation leaves the badge table untouched. -/
theorem getOrCreateConfig_WFc (db : DB) (s : Scope) (h : WFc db) :
    WFc (getOrCreateConfig db s).2 :=
  WFc_congr _ db (getOrCreateConfig_frame db s).2.2.2.2.2.2.2.1
    (le_of_eq (getOrCreateConfig_frame db s).2.2.2.2.2.2.2.2.2.2.2.2.symm) h

/-- The concurrency clause read as a count: a user outside it holds zero
offered/active badges. -/
theorem concCount_eq_zero_of_not_holds (db : DB) (uid : Nat)
    (h : holdsConcurrentBadge db uid = false) : concCount db uid = 0 := by
  unfold concCount
  unfold holdsConcurrentBadge at h
  rw [List.countP_eq_zero]
  rw [List.any_eq_false] at h
  intro a ha
  exact h a ha

/-- One assignment preserves wellformedness: the badge goes to an eligible
user, and eligibility requires holding no offered/active badge anywhere. -/
theorem assignNewBadge_WFc (db : DB) (s : Scope) (cfg : ConfigRow)
    (now p1 p2 : Nat) (h : WFc db) :
    WFc (assignNewBadge db s cfg now p1 p2) := by
  rcases assignNewBadge_cases db s cfg now p1 p2 with ⟨_, heq⟩ | ⟨u, hu, _, heq⟩
  · rw [heq]
    exact h
  · rw [heq]
    obtain ⟨h1, h2, h3⟩ := h
    refine ⟨?_, ?_, ?_⟩
    · show ((db.badges ++
        [(⟨db.nextId, s, u.id, BadgeStatus.offered, p2 % 5 + 3, none, none, 0, 5⟩ :
          Badge)]).map (fun b => b.id)).Nodup
      rw [List.map_append]
      rw [show ([(⟨db.nextId, s, u.id, BadgeStatus.offered, p2 % 5 + 3, none,
        none, 0, 5⟩ : Badge)].map (fun b => b.id)) = [db.nextId] from rfl]
      rw [List.nodup_append]
      refine ⟨h1, List.nodup_singleton _, ?_⟩
      intro a ha ha2
      rw [List.mem_singleton] at ha2
      obtain ⟨b1, hb1, hbe⟩ := List.mem_map.mp ha
      rw [← hbe] at ha2
      have ha3 : b1.id = db.nextId := ha2
      have := h2 b1 hb1
      omega
    · intro b hb
      show b.id < db.nextId + 2
      have hb' : b ∈ db.badges ++
        [(⟨db.nextId, s, u.id, BadgeStatus.offered, p2 % 5 + 3, none, none, 0, 5⟩ :
          Badge)] := hb
      rcases List.mem_append.mp hb' with h1' | h1'
      · have := h2 b h1'
        omega
      · rw [List.mem_singleton] at h1'
        rw [h1']
        show db.nextId < db.nextId + 2
        omega
    · intro uid
      show (db.badges ++
        [(⟨db.nextId, s, u.id, BadgeStatus.offered, p2 % 5 + 3, none, none, 0, 5⟩ :
          Badge)]).countP (fun b => decide (b.holderId = uid) && isConc b.status) ≤ 1
      rw [List.countP_append]
      by_cases he : u.id = uid
      · have hel : holdsConcurrentBadge db u.id = false := by
          unfold eligibleUsers at hu
          rw [List.mem_filter] at hu
          have hcond := hu.2
          simp only [Bool.and_eq_true, Bool.not_eq_true'] at hcond
          exact hcond.1.1.2
        have h0' : db.badges.countP
            (fun b => decide (b.holderId = uid) && isConc b.status) = 0 := by
          rw [← he]
          exact concCount_eq_zero_of_not_holds db u.id hel
        have hone : ([(⟨db.nextId, s, u.id, BadgeStatus.offered, p2 % 5 + 3, none,
            none, 0, 5⟩ : Badge)].countP
            (fun b => decide (b.holderId = uid) && isConc b.status)) = 1 := by
          simp [isConc, he]
        omega
      · have hzero : ([(⟨db.nextId, s, u.id, BadgeStatus.offered, p2 % 5 + 3, none,
            none, 0, 5⟩ : Badge)].countP
            (fun b => decide (b.holderId = uid) && isConc b.status)) = 0 := by
          simp [isConc, he]
        have hle : db.badges.countP
            (fun b => decide (b.holderId = uid) && isConc b.status) ≤ 1 := h3 uid
        omega

/-- The deficit loop preserves wellformedness. -/
theorem assignLoop_WFc (s : Scope) (cfg : ConfigRow) (now : Nat) :
    ∀ (n : Nat) (rs : List (Nat × Nat)) (db : DB), WFc db →
      WFc (assignLoop s cfg now n rs db) := by
  intro n
  induction n with
  | zero =>
      intro rs db h
      exact h
  | succ m ih =>
      intro rs db h
      unfold assignLoop
      exact ih rs.tail _ (assignNewBadge_WFc db s cfg now _ _ h)

/-- One balance-check run preserves wellformedness. -/
theorem checkAndAssign_WFc (db : DB) (s : Scope) (now : Nat)
    (rs : List (Nat × Nat)) (h : WFc db) :
    WFc (checkAndAssignBadges db s now rs) := by
  unfold checkAndAssignBadges
  exact assignLoop_WFc s _ now _ rs _ (getOrCreateConfig_WFc db s h)

/-- The balance sweep preserves wellformedness. -/
theorem balance_WFc (db : DB) (now : Nat) (scopeFail : Scope → Bool)
    (rands : Scope → List (Nat × Nat)) (h : WFc db) :
    WFc (checkAllScopesBadgeBalance db now scopeFail rands) := by
  unfold checkAllScopesBadgeBalance
  have key : ∀ (l : List Scope) (acc : DB), WFc acc →
      WFc (l.foldl (fun a s2 =>
        if scopeFail s2 then a else checkAndAssignBadges a s2 now (rands s2)) acc) := by
    intro l
    induction l with
    | nil => intro acc hacc; exact hacc
    | cons s2 t ih =>
        intro acc hacc
        rw [List.foldl_cons]
        by_cases hf : scopeFail s2 = true
        · rw [if_pos hf]
          exact ih acc hacc
        · rw [if_neg hf]
          exact ih _ (checkAndAssign_WFc acc s2 now (rands s2) hacc)
  exact key (sweepScopes db) db h

/-- The badge row locked by accept/decline is in the table, has the id of
the request and is still `offered`. -/
theorem findOpenInvitation_badge (db : DB) (uid bid now : Nat) (req : Bool) :
    ∀ ib, findOpenInvitation db uid bid now req = some ib →
      ib.2 ∈ db.badges ∧ ib.2.id = bid ∧ ib.2.status = BadgeStatus.offered := by
  intro ib h
  unfold findOpenInvitation at h
  cases hinv : db.invitations.find? (fun i =>
      decide (i.badgeId = bid ∧ i.userId = uid ∧ i.response = none) &&
      (!req || decide (i.expiresAt > now))) with
  | none => rw [hinv] at h; cases h
  | some i =>
      rw [hinv] at h
      cases hb : db.badges.find? (fun b =>
          decide (b.id = bid ∧ b.status = BadgeStatus.offered)) with
      | none => rw [hb] at h; cases h
      | some b =>
          rw [hb] at h
          have hib : (i, b) = ib := by injection h
          have hmem := List.mem_of_find?_eq_some hb
          have hp : b.id = bid ∧ b.status = BadgeStatus.offered := by
            have hpb := List.find?_some hb
            simpa using hpb
          rw [← hib]
          exact ⟨hmem, hp.1, hp.2⟩

/-- Accepting an invitation preserves wellformedness: the unique locked
badge goes `offered → active`, both of which count as concurrent. -/
theorem accept_WFc (db : DB) (uid bid now : Nat) (ledgerOk : Bool)
    (h : WFc db) : WFc (acceptInvitation db uid bid now ledgerOk).2 := by
  unfold acceptInvitation
  cases hf : findOpenInvitation db uid bid now true with
  | none => exact h
  | some ib =>
      dsimp only
      by_cases hl : ledgerOk = true
      · rw [if_pos hl]
        obtain ⟨hmem, hbid, hoff⟩ := findOpenInvitation_badge db uid bid now true ib hf
        dsimp only
        refine WFc_updateBadge_eq_unique _ bid _ (fun _ => rfl) ib.2 hmem hbid ?_ ?_
        · intro u2
          simp [isConc, hoff]
        · exact WFc_congr _ db rfl (le_refl _) h
      · rw [if_neg hl]
        exact h

/-- Declining an invitation preserves wellformedness. -/
theorem decline_WFc (db : DB) (uid bid now : Nat) (rands : List (Nat × Nat))
    (h : WFc db) : WFc (declineInvitation db uid bid now rands).2 := by
  unfold declineInvitation
  cases hf : findOpenInvitation db uid bid now false with
  | none => exact h
  | some ib =>
      dsimp only
      apply checkAndAssign_WFc
      refine WFc_updateBadge_le _ bid _ (fun _ => rfl) ?_ ?_
      · intro u2 b hx
        simp [isConc] at hx
      · exact WFc_congr _ db rfl (le_refl _) h

/-- One backfill (config get-or-create plus one assignment, both on their
own committed connections) preserves wellformedness. -/
theorem timeoutBackfill_WFc (keep : DB) (it : Invitation × Badge) (now : Nat)
    (r : Nat × Nat) (h : WFc keep) : WFc (timeoutBackfill keep it now r) := by
  show WFc (assignNewBadge (getOrCreateConfig keep it.2.scope).2 it.2.scope
    (getOrCreateConfig keep it.2.scope).1 now r.1 r.2)
  apply assignNewBadge_WFc
  exact getOrCreateConfig_WFc keep it.2.scope h

/-- One retirement (invitation marked timeout, badge declined) preserves
wellformedness. -/
theorem timeoutRetire_WFc (cur : DB) (it : Invitation × Badge)
    (h : WFc cur) : WFc (timeoutRetire cur it) := by
  unfold timeoutRetire
  refine WFc_updateBadge_le _ it.1.badgeId _ (fun _ => rfl) ?_ ?_
  · intro u2 b hx
    simp [isConc] at hx
  · exact WFc_congr _ cur rfl (le_refl _) h

/-- Applying the pending retirements at COMMIT preserves wellformedness. -/
theorem retireFold_WFc :
    ∀ (done : List (Invitation × Badge)) (cur : DB), WFc cur →
      WFc (done.foldl timeoutRetire cur) := by
  intro done
  induction done with
  | nil => intro cur h; exact h
  | cons it rest ih =>
      intro cur h
      rw [List.foldl_cons]
      exact ih _ (timeoutRetire_WFc cur it h)

/-- The timeout loop preserves wellformedness: the committed state stays
wellformed through the backfills, an abort returns it as is, and a COMMIT
applies only status-lowering retirements. -/
theorem timeoutLoop_WFc (now : Nat) (itemFail : Nat → Bool) :
    ∀ (items : List (Invitation × Badge)) (rs : List (Nat × Nat)) (keep : DB)
      (done : List (Invitation × Badge)),
    WFc keep → WFc (timeoutLoop now itemFail items rs keep done).2 := by
  intro items
  induction items with
  | nil =>
      intro rs keep done hkeep
      simp only [timeoutLoop]
      exact retireFold_WFc done keep hkeep
  | cons it rest ih =>
      intro rs keep done hkeep
      simp only [timeoutLoop]
      by_cases hf : itemFail it.1.id = true
      · rw [if_pos hf]
        exact hkeep
      · rw [if_neg hf]
        exact ih rs.tail _ (done ++ [it])
          (timeoutBackfill_WFc keep it now (rs.headD (0, 0)) hkeep)

/-- The timeout sweep preserves wellformedness. -/
theorem timeouts_WFc (db : DB) (now : Nat) (itemFail : Nat → Bool)
    (rands : List (Nat × Nat)) (h : WFc db) :
    WFc (processInvitationTimeouts db now itemFail rands).2 := by
  unfold processInvitationTimeouts
  exact timeoutLoop_WFc now itemFail (expiredInvitations db now) rands db [] h

/-- Reputation updates touch only `users`. -/
theorem adjustReputation_WFc (db : DB) (uid : Nat) (delta : Int) (h : WFc db) :
    WFc (adjustReputation db uid delta) :=
  WFc_congr _ db rfl (le_refl _) h

/-- Rewriting the history table touches no badges. -/
theorem WFc_set_history (db : DB) (l : List HistoryRow) (h : WFc db) :
    WFc { db with history := l } :=
  WFc_congr _ db rfl (le_refl _) h

/-- Appending a mod action and bumping the id counter touches no badges. -/
theorem WFc_push_action (db : DB) (l : List ModAction) (h : WFc db) :
    WFc { db with modActions := l, nextId := db.nextId + 1 } := by
  refine WFc_congr _ db rfl ?_ h
  show db.nextId ≤ db.nextId + 1
  omega

/-- Content removal touches only posts, comments and users. -/
theorem applyRemoval_WFc (db : DB) (d : Decision) (h : WFc db) :
    WFc (applyRemoval db d) :=
  WFc_congr _ db (applyRemoval_frame db d).1
    (le_of_eq (applyRemoval_frame db d).2.2.2.2.2.2.symm) h

/-- Flag resolution touches only flags. -/
theorem resolveFlags_WFc (db : DB) (ct : ContentType) (cid : Nat) (h : WFc db) :
    WFc (resolveFlags db ct cid) :=
  WFc_congr _ db rfl (le_refl _) h

/-- Passing a badge preserves wellformedness. -/
theorem pass_WFc (db : DB) (uid bid reason now : Nat) (rands : List (Nat × Nat))
    (h : WFc db) : WFc (passBadge db uid bid reason now rands).2 := by
  unfold passBadge
  cases hfind : db.badges.find? (fun b =>
      decide (b.id = bid ∧ b.holderId = uid ∧ b.status = BadgeStatus.active)) with
  | none => exact h
  | some b =>
      dsimp only
      apply checkAndAssign_WFc
      apply adjustReputation_WFc
      apply WFc_set_history
      refine WFc_updateBadge_le _ bid _ (fun _ => rfl) ?_ ?_
      · intro u2 b2 hx
        simp [isConc] at hx
      · apply WFc_push_action
        exact h

/-- Submitting a decision preserves wellformedness: the badge row only gets
its `actions_taken` incremented. -/
theorem submit_WFc (db : DB) (uid : Nat) (d : Decision) (now : Nat)
    (ledgerOk : Bool) (h : WFc db) :
    WFc (submitModerationDecision db uid d now ledgerOk).2 := by
  unfold submitModerationDecision
  cases hfind : db.badges.find? (fun b =>
      decide (b.id = d.badgeId ∧ b.holderId = uid ∧ b.status = BadgeStatus.active)) with
  | none => exact h
  | some b =>
      dsimp only
      by_cases hl : ledgerOk = true
      · rw [if_pos hl]
        dsimp only
        refine WFc_updateBadge_le _ d.badgeId _ (fun _ => rfl) ?_ ?_
        · intro u2 b2 hx
          exact hx
        · apply resolveFlags_WFc
          apply applyRemoval_WFc
          apply WFc_push_action
          exact h
      · rw [if_neg hl]
        exact h

/-- The completion path does not move the id counter. -/
theorem settleCompleted_nextId (orig acc : DB) (b : Badge) (now : Nat) :
    (settleCompleted orig acc b now).nextId = acc.nextId := by
  unfold settleCompleted
  dsimp only
  by_cases hp : orFalsy ((configFor orig b.scope).bind (fun c => c.rewardPco)) 500 > 0 ∧
      (holderWallet orig b).isSome
  · rw [if_pos hp]
    rfl
  · rw [if_neg hp]
    rfl

/-- The abandoned path does not move the id counter. -/
theorem settleAbandoned_nextId (orig acc : DB) (b : Badge) (now : Nat) :
    (settleAbandoned orig acc b now).nextId = acc.nextId := rfl

/-- One settlement step preserves wellformedness. -/
theorem settleStep_WFc (orig : DB) (now : Nat) (L : Nat → Bool) (acc : DB)
    (b : Badge) (h : WFc acc) : WFc (settleStep orig now L acc b) := by
  have hupd : WFc (updateBadge acc b.id
      (fun x => { x with status := BadgeStatus.expired })) := by
    refine WFc_updateBadge_le _ b.id _ (fun _ => rfl) ?_ h
    intro u2 b2 hx
    simp [isConc] at hx
  unfold settleStep
  by_cases hq : b.actionsTaken ≥ b.minActionsRequired
  · rw [if_pos hq]
    refine WFc_congr _ (updateBadge acc b.id
      (fun x => { x with status := BadgeStatus.expired })) ?_ ?_ hupd
    · rw [(settleCompleted_proj orig acc b now).1]
      rfl
    · exact le_of_eq (settleCompleted_nextId orig acc b now).symm
  · rw [if_neg hq]
    by_cases hL : L b.id = true
    · rw [if_pos hL]
      refine WFc_congr _ (updateBadge acc b.id
        (fun x => { x with status := BadgeStatus.expired })) ?_ ?_ hupd
      · rw [(settleAbandoned_proj orig acc b now).1]
        rfl
      · exact le_of_eq (settleAbandoned_nextId orig acc b now).symm
    · rw [if_neg hL]
      exact h

/-- The settlement sweep preserves wellformedness. -/
theorem settle_WFc (db : DB) (now : Nat) (L : Nat → Bool) (h : WFc db) :
    WFc (processExpiredBadges db now L) := by
  unfold processExpiredBadges
  have key : ∀ (l : List Badge) (acc : DB), WFc acc →
      WFc (l.foldl (settleStep db now L) acc) := by
    intro l
    induction l with
    | nil => intro acc hacc; exact hacc
    | cons b t ih =>
        intro acc hacc
        rw [List.foldl_cons]
        exact ih _ (settleStep_WFc db now L acc b hacc)
  exact key _ db h

/-- Every reachable state is wellformed: distinct badge ids below the
counter, and no user with two offered/active badges. -/
theorem reach_WFc : ∀ {db : DB}, Reach db → WFc db := by
  intro db h
  induction h with
  | init e => exact initDB_WFc e
  | env e _ ih => exact setEnv_WFc _ e ih
  | balance now scopeFail rands _ ih => exact balance_WFc _ now scopeFail rands ih
  | check scope now rands _ ih => exact checkAndAssign_WFc _ scope now rands ih
  | accept uid bid now ledgerOk _ ih => exact accept_WFc _ uid bid now ledgerOk ih
  | decline uid bid now rands _ ih => exact decline_WFc _ uid bid now rands ih
  | timeouts now itemFail rands _ ih => exact timeouts_WFc _ now itemFail rands ih
  | pass uid bid reason now rands _ ih => exact pass_WFc _ uid bid reason now rands ih
  | submit uid d now ledgerOk _ ih => exact submit_WFc _ uid d now ledgerOk ih
  | settle now itemLedgerOk _ ih => exact settle_WFc _ now itemLedgerOk ih

/-- C2: in every state reachable by the engine's operations (assignment,
accept, decline, timeout sweep, pass, decision submission, settlement sweep,
under arbitrary environment changes), no user holds two badges with status
in {offered, active} at the same time, across all scopes: candidate
selection's `NOT EXISTS` clause excludes anyone already holding an
offered/active badge anywhere, and every other operation either keeps a
badge's holder and concurrency status or retires the badge. -/
theorem c2_no_concurrent (db : DB) (h : Reach db) (uid : Nat) :
    concCount db uid ≤ 1 :=
  (reach_WFc h).2.2 uid

/-- A single active member of pillar 9 with no config rows. -/
def envC2 : Env :=
  { users := [mkPillarUser 0 10]
    groups := [], groupMembers := [], pillars := [9]
    posts := [], comments := [], flags := [], configs := [] }

/-- One balance run over `envC2`: its one member gets one offered badge. -/
def c2WitDB : DB :=
  checkAndAssignBadges (initDB envC2) fixPillarScope 1000 [(0, 0)]

/-- Witness for C2 at a concrete reachable state holding one offered
badge. -/
theorem c2_no_concurrent_witness :
    Reach c2WitDB ∧ concCount c2WitDB 1 ≤ 1 :=
  ⟨Reach.check fixPillarScope 1000 [(0, 0)] (Reach.init envC2),
   c2_no_concurrent c2WitDB
     (Reach.check fixPillarScope 1000 [(0, 0)] (Reach.init envC2)) 1⟩

end PollifyMod
